import Mathlib

/-!
# AbjaR-RH: role predicates, weekly attendance rate, attendance export, handlers, forms

A shallow embedding of the client-side logic of the AbjaR-RH front-end
(`src/components/Attendance/Attendance.jsx`, `Dashboard/Dashboard.jsx`,
`UserManagement/UserManagement.jsx`, `Task/Tasks.jsx`, `Schedule/Schedule.jsx`,
`Auth/AuthContainer.jsx`, `contexts/AuthContext.jsx`, `Layout.jsx`).

Conventions of the embedding:

* a JavaScript value that may be `null`/`undefined` is an `Option`;
  `x?.f` is `Option.map`/`Option.bind`, and `=== 'lit'` on it is equality with `some "lit"`;
* a calendar date (the `'YYYY-MM-DD'` strings of the `tanggal` column) is its day number
  since 1970-01-01, an `Int`; the representation is injective, so `===` on two date strings
  is equality of day numbers;
* a `Date` object is its time value, the number of milliseconds since the epoch (UTC), an
  `Int`; an offset of the runtime's time zone is in minutes east of UTC (local time = UTC +
  offset).  The date arithmetic of the dashboard takes a `TimeZone`, whose offset may change
  with the instant (daylight saving), `fixedZone tz` being the zone of constant offset `tz`;
  the week numbers of the export are taken in a zone of constant offset `tz`;
* integers below `2 ^ 53` in absolute value are exact in binary64, and the quotient of such
  an integer by a constant is within one part in `2 ^ 52` of the real quotient, so the
  `Math.floor`/`Math.ceil` of the day counts are integer floor and ceiling divisions;
* the percentage `(a / t) * 100` is computed in IEEE-754 binary64, round to nearest, ties to
  even: each operation is modelled exactly, its result being a fraction of two naturals;
* a table of the store is the list of its rows, a query is a filter on it, and an update
  rewrites the rows it selects; a handler is the pure function from the state it reads to
  the request it sends (`none` when it sends nothing);
* a JavaScript object used as a map is a list of `(key, value)` in order of insertion, or
  the lookup function when only lookups matter;
* functions of the platform that the code calls (`JSON.stringify`, `JSON.parse`,
  `Math.random`) are parameters of the definitions that use them.
-/

namespace AbjaR

/-! ## Data model -/

/-- The session user (`useAuth().user`) and the rows of the `users` table. -/
structure User where
  id : String
  nama_lengkap : String
  npm : String
  role : String
  deriving DecidableEq, Repr

/-- The joined `users:user_id (nama_lengkap, npm, role)` of an attendance row. -/
structure Submitter where
  nama_lengkap : String
  npm : String
  role : String
  deriving DecidableEq, Repr

/-- A row of the `absensi` table with its joins, as selected by the attendance view. -/
structure Attendance where
  id : String
  user_id : String
  tanggal : Int
  status : String
  users : Option Submitter
  mata_kuliah : Option String
  created_at : String
  approver : Option String
  approved_at : Option String
  deriving DecidableEq, Repr

/-! ## Authorization predicates -/

/-- `canApprove` of `Attendance.jsx`, lines 195-202. -/
def canApprove (user : Option User) (attendance : Attendance) : Bool :=
  if user.map (·.role) = some "super_admin" then
    decide (attendance.users.map (·.role) = some "admin") && decide (attendance.status = "pending")
  else if user.map (·.role) = some "admin" then
    decide (attendance.users.map (·.role) = some "anggota") && decide (attendance.status = "pending")
  else
    false

/-- `canPromoteToAdmin` of `UserManagement.jsx`, lines 101-108; `users` is the fetched list. -/
def canPromoteToAdmin (user : Option User) (users : List User) (targetUser : User) : Bool :=
  if user.map (·.role) ≠ some "super_admin" then false
  else if targetUser.role = "super_admin" then false
  else if some targetUser.id = user.map (·.id) then false
  else
    let currentAdminCount := (users.filter (fun u => decide (u.role = "admin"))).length
    decide (targetUser.role = "anggota") && decide (currentAdminCount < 2)

/-- `canDemoteFromAdmin` of `UserManagement.jsx`, lines 110-114. -/
def canDemoteFromAdmin (user : Option User) (targetUser : User) : Bool :=
  if user.map (·.role) ≠ some "super_admin" then false
  else if some targetUser.id = user.map (·.id) then false
  else decide (targetUser.role = "admin")

/-! ## Time values and calendar -/

/-- Milliseconds per day, `24 * 60 * 60 * 1000`. -/
def msPerDay : Int := 24 * 60 * 60 * 1000

/-- Milliseconds per minute. -/
def msPerMinute : Int := 60 * 1000

/-- ECMAScript `Day(t)`: the day number of a time value (floor division). -/
def Day (t : Int) : Int := t / msPerDay

/-- ECMAScript `LocalTime(t)` in a zone `tz` minutes east of UTC. -/
def LocalTime (tz t : Int) : Int := t + tz * msPerMinute

/-- ECMAScript `DayFromYear(y)`: the day number of January 1 of year `y`. -/
def DayFromYear (y : Int) : Int :=
  365 * (y - 1970) + (y - 1969) / 4 - (y - 1901) / 100 + (y - 1601) / 400

/-- ECMAScript `YearFromTime` on day numbers: the largest `y` with `DayFromYear y ≤ d`,
computed from the estimate `1970 + 400 d / 146097`, which is off by at most one. -/
def YearFromDay (d : Int) : Int :=
  let y := 1970 + (400 * d) / 146097
  if DayFromYear (y + 1) ≤ d then y + 1
  else if DayFromYear y ≤ d then y
  else y - 1

/-- `date.getFullYear()`: the year of the local date. -/
def getFullYear (tz date : Int) : Int := YearFromDay (Day (LocalTime tz date))

/-- `date.getDay()`: the weekday of the local date, 0 = Sunday .. 6 = Saturday
(day 0, 1970-01-01, was a Thursday). -/
def getDay (tz date : Int) : Int := (Day (LocalTime tz date) + 4) % 7

/-- `date.toISOString().split('T')[0]`: the UTC calendar date of a time value. -/
def toISODate (date : Int) : Int := Day date

/-- `new Date(tanggal)` for a date-only string `'YYYY-MM-DD'`: midnight UTC of that date. -/
def newDate (tanggal : Int) : Int := tanggal * msPerDay

/-- `new Date(year, 0, 1)`: local midnight of January 1; a year from 0 to 99 is taken as
`1900 + year` by the `Date` constructor. -/
def newDateJan1 (tz year : Int) : Int :=
  let yr := if 0 ≤ year ∧ year ≤ 99 then 1900 + year else year
  DayFromYear yr * msPerDay - tz * msPerMinute

/-- The time zone of the runtime, offsets in minutes east of UTC: `utcOffset t` is the offset
in force at the instant `t` (ECMAScript `LocalTZA(t, true)`), and `localOffset t` is the
offset with which the local time value `t` is converted to UTC (`LocalTZA(t, false)`). -/
structure TimeZone where
  utcOffset : Int → Int
  localOffset : Int → Int

/-- The zone whose offset is always `tz` minutes. -/
def fixedZone (tz : Int) : TimeZone := ⟨fun _ => tz, fun _ => tz⟩

/-- New York in 2024: UTC−5, and UTC−4 (daylight saving) from 2024-03-10 07:00 UTC to
2024-11-03 06:00 UTC.  A local time of the hour skipped on March 10 (02:00 to 03:00) is
taken with the offset before the change, one of the hour repeated on November 3 (01:00 to
02:00) with the earlier of its two instants. -/
def newYork2024 : TimeZone :=
  ⟨fun t =>
      if (DayFromYear 2024 + 69) * msPerDay + 7 * 60 * msPerMinute ≤ t ∧
          t < (DayFromYear 2024 + 307) * msPerDay + 6 * 60 * msPerMinute then -240 else -300,
   fun t =>
      if (DayFromYear 2024 + 69) * msPerDay + 3 * 60 * msPerMinute ≤ t ∧
          t < (DayFromYear 2024 + 307) * msPerDay + 2 * 60 * msPerMinute then -240 else -300⟩

/-- Berlin in 2024: UTC+1, and UTC+2 (daylight saving) from 2024-03-31 01:00 UTC to
2024-10-27 01:00 UTC.  A local time of the hour skipped on March 31 (02:00 to 03:00) is
taken with the offset before the change, one of the hour repeated on October 27 (02:00 to
03:00) with the earlier of its two instants. -/
def berlin2024 : TimeZone :=
  ⟨fun t =>
      if (DayFromYear 2024 + 90) * msPerDay + 1 * 60 * msPerMinute ≤ t ∧
          t < (DayFromYear 2024 + 300) * msPerDay + 1 * 60 * msPerMinute then 120 else 60,
   fun t =>
      if (DayFromYear 2024 + 90) * msPerDay + 3 * 60 * msPerMinute ≤ t ∧
          t < (DayFromYear 2024 + 300) * msPerDay + 3 * 60 * msPerMinute then 120 else 60⟩

/-- `date.setDate(date.getDate() - i)`, ECMAScript `Date.prototype.setDate`: on the local
time `t = LocalTime(date)` the day moves `i` days back and the time within the day is kept
(`MakeDate(MakeDay(YearFromTime(t), MonthFromTime(t), DateFromTime(t) - i),
TimeWithinDay(t))` is `t - i * msPerDay`), and the result is converted to UTC with the
offset of the zone at that local time. -/
def setDateBack (zone : TimeZone) (date : Int) (i : Nat) : Int :=
  let t := LocalTime (zone.utcOffset date) date
  let localDate := t - (i : Int) * msPerDay
  localDate - zone.localOffset localDate * msPerMinute

/-- `Math.ceil(a / b)` for an integer `a` and a positive integer `b`: the binary64 quotient
of two integers is an integer exactly when `b` divides `a`, so this is the integer
ceiling. -/
def ceilDiv (a b : Int) : Int := -((-a) / b)

/-! ## IEEE-754 binary64 arithmetic on positive values -/

/-- Floor of the binary logarithm by repeated halving; the first argument bounds the number
of halvings. -/
def log2Aux : Nat → Nat → Nat
  | 0, _ => 0
  | fuel + 1, n => if n < 2 then 0 else log2Aux fuel (n / 2) + 1

/-- Floor of the binary logarithm of a positive natural. -/
def log2 (n : Nat) : Nat := log2Aux n n

/-- The binary64 value nearest to the positive rational `n / d` (round to nearest, ties to
even, 53-bit significand), returned as a fraction `(numerator, denominator)` whose
denominator is a power of two.  Exact for results in the normal range; `(0, 1)` stands for
zero when `n = 0` (and is returned for `d = 0`, which the callers exclude). -/
def roundToF64 (n d : Nat) : Nat × Nat :=
  if n = 0 ∨ d = 0 then (0, 1) else
  let e := log2 n
  let f := log2 d
  -- scale so that `N / D0` lies strictly between `2 ^ 52` and `2 ^ 54`
  let N := n * 2 ^ (53 + f - e)
  let D0 := d * 2 ^ (e - (53 + f))
  let D := if N / D0 < 2 ^ 53 then D0 else 2 * D0
  -- `q` is the significand truncated to 53 bits, `r` the remainder
  let q := N / D
  let r := N % D
  let m := if 2 * r < D then q else if 2 * r = D ∧ q % 2 = 0 then q else q + 1
  (m * (D / d), N / n)

/-- The quotient `a / b` of two integer-valued numbers in binary64. -/
def divF64 (a b : Nat) : Nat × Nat := roundToF64 a b

/-- The product `x * c` of a binary64 value and an integer-valued number in binary64. -/
def mulF64 (x : Nat × Nat) (c : Nat) : Nat × Nat := roundToF64 (x.1 * c) x.2

/-- `Math.round(x)` for `x ≥ 0`: the nearest integer, a tie going towards +∞. -/
def mathRound (x : Nat × Nat) : Nat := (2 * x.1 + x.2) / (2 * x.2)

/-! ## Dashboard: weekly attendance (`Dashboard.jsx`, `fetchAttendanceData`) -/

/-- A row of `select('tanggal, status')`. -/
structure AttendanceRecord where
  tanggal : Int
  status : String
  deriving DecidableEq, Repr

/-- A point of the chart series; `day` is the weekday index of the local date, standing for
its short name (`toLocaleDateString('id-ID', { weekday: 'short' })`). -/
structure ChartPoint where
  day : Int
  count : Nat
  deriving DecidableEq, Repr

/-- The lower bound of the query: `oneWeekAgo.toISOString().split('T')[0]`, lines 149-156. -/
def oneWeekAgoStr (zone : TimeZone) (now : Int) : Int := toISODate (setDateBack zone now 7)

/-- The rows the query of lines 152-156 returns from the `absensi` table:
`.eq('user_id', user.id).gte('tanggal', oneWeekAgo...)`, projected to `tanggal, status`. -/
def selectAttendance (zone : TimeZone) (now : Int) (userId : String)
    (absensi : List Attendance) : List AttendanceRecord :=
  (absensi.filter
    (fun a => decide (a.user_id = userId) && decide (oneWeekAgoStr zone now ≤ a.tanggal))).map
    (fun a => ⟨a.tanggal, a.status⟩)

/-- The body of the loop of lines 162-181 for one value of `i`; the accumulator is
`(weeklyData, weekdayAttendanceData)`.  The weekday of `date` is taken with the offset in
force at `date`. -/
def attendanceStep (zone : TimeZone) (now : Int) (attendanceData : Option (List AttendanceRecord))
    (acc : List ChartPoint × List AttendanceRecord) (i : Nat) :
    List ChartPoint × List AttendanceRecord :=
  let date := setDateBack zone now i
  let dateStr := toISODate date
  let dayName := getDay (zone.utcOffset date) date
  let dayOfWeek := getDay (zone.utcOffset date) date
  let dayAttendance :=
    (attendanceData.map (fun l => l.filter (fun a => decide (a.tanggal = dateStr)))).getD []
  let approvedCount := (dayAttendance.filter (fun a => decide (a.status = "approved"))).length
  (acc.1 ++ [⟨dayName, approvedCount⟩],
   if 1 ≤ dayOfWeek ∧ dayOfWeek ≤ 5 then acc.2 ++ dayAttendance else acc.2)

/-- The loop `for (let i = 6; i >= 0; i--)`. -/
def attendanceLoop (zone : TimeZone) (now : Int) (attendanceData : Option (List AttendanceRecord)) :
    List ChartPoint × List AttendanceRecord :=
  [6, 5, 4, 3, 2, 1, 0].foldl (attendanceStep zone now attendanceData) ([], [])

/-- Lines 185-187: `Math.round((approved / total) * 100)`, or 0 when `total` is 0. -/
def attendanceRateOf (weekdayAttendanceData : List AttendanceRecord) : Nat :=
  let approvedWeekdayAttendance :=
    (weekdayAttendanceData.filter (fun a => decide (a.status = "approved"))).length
  let totalWeekdayAttendance := weekdayAttendanceData.length
  if totalWeekdayAttendance > 0 then
    mathRound (mulF64 (divF64 approvedWeekdayAttendance totalWeekdayAttendance) 100)
  else 0

/-- `fetchAttendanceData` of `Dashboard.jsx`, lines 158-192, on the fetched rows: the pair
`(weeklyAttendance, attendanceRate)` it stores.  `now` is the value of `new Date()`; the
calls of one run are taken to return the same instant. -/
def fetchAttendanceData (zone : TimeZone) (now : Int)
    (attendanceData : Option (List AttendanceRecord)) : List ChartPoint × Nat :=
  let r := attendanceLoop zone now attendanceData
  (r.1, attendanceRateOf r.2)

/-- The rate of the specification: `round(100 × approved / total)`, 0 when `total = 0`,
in exact arithmetic (a tie goes up). -/
def specRate (approved total : Nat) : Nat :=
  if total = 0 then 0 else (200 * approved + total) / (2 * total)

/-- Monday to Friday, for a calendar date given by its day number. -/
def isWeekday (tanggal : Int) : Bool :=
  decide (1 ≤ (tanggal + 4) % 7) && decide ((tanggal + 4) % 7 ≤ 5)

/-- The records the loop adds to `weekdayAttendanceData` in iteration `i`. -/
def weekdayShare (zone : TimeZone) (now : Int) (data : List AttendanceRecord) (i : Nat) :
    List AttendanceRecord :=
  if 1 ≤ getDay (zone.utcOffset (setDateBack zone now i)) (setDateBack zone now i) ∧
      getDay (zone.utcOffset (setDateBack zone now i)) (setDateBack zone now i) ≤ 5 then
    data.filter (fun a => decide (a.tanggal = toISODate (setDateBack zone now i)))
  else []

/-- The trailing window of seven UTC calendar days, today included: `today - 6 .. today`,
where today is the date `new Date().toISOString()` shows. -/
def inWindow (now : Int) (a : AttendanceRecord) : Bool :=
  decide (Day now - 6 ≤ a.tanggal) && decide (a.tanggal ≤ Day now)

/-- Friday 2024-01-12, 12:00 UTC (19:00 in a zone seven hours east). -/
def fridayNoon : Int := (DayFromYear 2024 + 11) * msPerDay + 12 * 60 * msPerMinute

/-- Forty records on the five weekdays 2024-01-08 .. 2024-01-12, eight a day: 23 approved
and 17 pending. -/
def fortyRecords : List AttendanceRecord :=
  (List.range 5).flatMap (fun j =>
    List.replicate (if j < 4 then 5 else 3) ⟨DayFromYear 2024 + 7 + j, "approved"⟩ ++
    List.replicate (if j < 4 then 3 else 5) ⟨DayFromYear 2024 + 7 + j, "pending"⟩)

/-- Five weekday records of the same week, 3 approved and 2 pending. -/
def fiveRecords : List AttendanceRecord :=
  [⟨DayFromYear 2024 + 7, "approved"⟩, ⟨DayFromYear 2024 + 8, "pending"⟩,
   ⟨DayFromYear 2024 + 9, "approved"⟩, ⟨DayFromYear 2024 + 10, "pending"⟩,
   ⟨DayFromYear 2024 + 11, "approved"⟩]

/-- Sunday 2024-01-07, 20:00 UTC: in a zone seven hours east it is Monday 2024-01-08,
03:00. -/
def mondayEarly : Int := (DayFromYear 2024 + 6) * msPerDay + 20 * 60 * msPerMinute

/-- Sunday 2024-03-10, 23:30 UTC: in New York it is 19:30 of the same day, the day daylight
saving began. -/
def springForwardEvening : Int := (DayFromYear 2024 + 69) * msPerDay + (23 * 60 + 30) * msPerMinute

/-- Tuesday 2024-11-05, 00:30 UTC: in New York it is Monday 2024-11-04, 19:30, the day after
daylight saving ended. -/
def afterFallBack : Int := (DayFromYear 2024 + 309) * msPerDay + 30 * msPerMinute

/-- Tuesday 2024-10-29, 00:30 UTC: in Berlin it is 01:30 of the same day, two days after
daylight saving ended. -/
def berlinEarly : Int := (DayFromYear 2024 + 302) * msPerDay + 30 * msPerMinute

/-! ## Attendance export: week numbers and weekly groups (`Attendance.jsx`) -/

/-- `getWeekNumber` of `Attendance.jsx`, lines 204-208. -/
def getWeekNumber (tz date : Int) : Int :=
  let startDate := newDateJan1 tz (getFullYear tz date)
  let days := (date - startDate) / msPerDay
  ceilDiv days 7

/-- The ordinal day of a date within its (local) year, January 1 being day 1. -/
def dayOfYear (tz date : Int) : Int :=
  Day (LocalTime tz date) - DayFromYear (getFullYear tz date) + 1

/-- The week number of the specification: `ceil(day_of_year(date) / 7)`. -/
def specWeekNumber (tz date : Int) : Int := ceilDiv (dayOfYear tz date) 7

/-- A line of a weekly sheet (the object pushed at lines 246-258).  The formatted dates and
times are kept as the values they are formatted from. -/
structure ExportRow where
  mingguKe : Int
  tanggal : Int
  nama : String
  npm : String
  mataKuliah : String
  status : String
  waktuAbsen : String
  disetujuiOleh : String
  waktuDisetujui : String
  deriving DecidableEq, Repr

/-- `x || fallback` for a string that may be missing: the empty string is falsy too. -/
def orElse (x : Option String) (fallback : String) : String :=
  match x with
  | some s => if s = "" then fallback else s
  | none => fallback

/-- The week key of a row: `getWeekNumber(new Date(attendance.tanggal))`, lines 239-240. -/
def weekOf (tz : Int) (attendance : Attendance) : Int :=
  getWeekNumber tz (newDate attendance.tanggal)

/-- The object built at lines 246-258 for a row. -/
def exportRow (tz : Int) (attendance : Attendance) : ExportRow :=
  { mingguKe := weekOf tz attendance
    tanggal := Day (LocalTime tz (newDate attendance.tanggal))
    nama := orElse (attendance.users.map (·.nama_lengkap)) ""
    npm := orElse (attendance.users.map (·.npm)) ""
    mataKuliah := orElse attendance.mata_kuliah ""
    status := if attendance.status = "approved" then "Disetujui"
              else if attendance.status = "rejected" then "Ditolak" else "Menunggu"
    waktuAbsen := attendance.created_at
    disetujuiOleh := orElse attendance.approver "-"
    waktuDisetujui := orElse attendance.approved_at "-" }

/-- Lines 242-246 on the object `weeklyData`, kept as a list of `(key, rows)` in order of
first insertion: create the key with an empty array if it is missing, then push. -/
def pushWeek (weeklyData : List (Int × List ExportRow)) (weekNum : Int) (row : ExportRow) :
    List (Int × List ExportRow) :=
  match weeklyData with
  | [] => [(weekNum, [row])]
  | (k, rows) :: rest =>
    if k = weekNum then (k, rows ++ [row]) :: rest
    else (k, rows) :: pushWeek rest weekNum row

/-- The `forEach` of lines 238-259: the weekly groups of the exported rows. -/
def groupByWeek (tz : Int) (allAttendance : List Attendance) : List (Int × List ExportRow) :=
  allAttendance.foldl (fun weeklyData a => pushWeek weeklyData (weekOf tz a) (exportRow tz a)) []

/-- `weeklyData[week]`. -/
def weekRows (weeklyData : List (Int × List ExportRow)) (week : Int) : Option (List ExportRow) :=
  (weeklyData.find? (fun p => decide (p.1 = week))).map (·.2)

/-! ## Attendance export: the workbook (`downloadExcel`, lines 261-335) -/

/-- Whether a property key is an integer index in the sense of `Object.keys`: the decimal
numeral of an integer from 0 to `2 ^ 32 - 2`. -/
def isArrayIndex (k : Int) : Bool := decide (0 ≤ k) && decide (k < 4294967295)

/-- `Object.keys(weeklyData)`: the integer-index keys in ascending order, then the other
keys in order of insertion. -/
def objectKeys (weeklyData : List (Int × List ExportRow)) : List Int :=
  ((weeklyData.map (·.1)).filter isArrayIndex).insertionSort (· ≤ ·) ++
    (weeklyData.map (·.1)).filter (fun k => !isArrayIndex k)

/-- A line of the summary sheet (the object built at lines 265-271). -/
structure SummaryRow where
  mingguKe : Int
  totalAbsensi : Nat
  disetujui : Nat
  menunggu : Nat
  ditolak : Nat
  deriving DecidableEq, Repr

/-- `summaryData`, lines 265-271. -/
def summaryData (weeklyData : List (Int × List ExportRow)) : List SummaryRow :=
  (objectKeys weeklyData).map (fun week =>
    let rows := (weekRows weeklyData week).getD []
    { mingguKe := week
      totalAbsensi := rows.length
      disetujui := (rows.filter (fun a => decide (a.status = "Disetujui"))).length
      menunggu := (rows.filter (fun a => decide (a.status = "Menunggu"))).length
      ditolak := (rows.filter (fun a => decide (a.status = "Ditolak"))).length })

/-- The content of a worksheet: `json_to_sheet` of the summary lines or of a week's lines
(cell styles and column widths are left out). -/
inductive SheetData where
  | summary (lines : List SummaryRow)
  | weekly (lines : List ExportRow)
  deriving DecidableEq, Repr

/-- A sheet of the workbook with its name. -/
structure Sheet where
  name : String
  data : SheetData
  deriving DecidableEq, Repr

/-- `XLSX.utils.book_append_sheet(wb, ws, name)`: the sheet is added after the others. -/
def bookAppendSheet (wb : List Sheet) (ws : SheetData) (name : String) : List Sheet :=
  wb ++ [⟨name, ws⟩]

/-- `Object.keys(weeklyData).sort((a, b) => parseInt(a) - parseInt(b))`, line 298. -/
def sortedWeeks (weeklyData : List (Int × List ExportRow)) : List Int :=
  (objectKeys weeklyData).insertionSort (· ≤ ·)

/-- The workbook `downloadExcel` writes for the fetched rows `allAttendance` (lines 235-335):
the summary sheet, then one sheet per key of `weeklyData`. -/
def downloadExcel (tz : Int) (allAttendance : Option (List Attendance)) : List Sheet :=
  let weeklyData := groupByWeek tz (allAttendance.getD [])
  let wb := bookAppendSheet [] (SheetData.summary (summaryData weeklyData)) "Ringkasan"
  (sortedWeeks weeklyData).foldl
    (fun wb week =>
      bookAppendSheet wb (SheetData.weekly ((weekRows weeklyData week).getD []))
        ("Minggu " ++ toString week))
    wb

/-- Thirteen rows of 2024 in a zone seven hours east of UTC: seven dated 2024-01-30 ..
2024-02-05 and six dated 2024-02-06 .. 2024-02-11, every third one approved, the others
pending or rejected in turn. -/
def thirteenRows : List Attendance :=
  (List.range 13).map (fun j =>
    { id := toString j
      user_id := "u1"
      tanggal := DayFromYear 2024 + 29 + j
      status := if j % 3 = 0 then "approved" else if j % 3 = 1 then "pending" else "rejected"
      users := some ⟨"Budi", "12345678", "anggota"⟩
      mata_kuliah := some "Aljabar"
      created_at := ""
      approver := none
      approved_at := none })

/-! ## User management: buttons, role change (`UserManagement.jsx`) -/

/-- The roles `handleRoleChange(targetUser, role)` can be invoked with from the row of
`targetUser` (lines 328-354): the 'Jadikan Admin' button is rendered when the block is
rendered and `canPromote` holds, the 'Turunkan' button when `canDemote` holds. -/
def roleButtons (user : Option User) (users : List User) (targetUser : User) : List String :=
  let canPromote := canPromoteToAdmin user users targetUser
  let canDemote := canDemoteFromAdmin user targetUser
  if user.map (·.role) = some "super_admin" ∧ some targetUser.id ≠ user.map (·.id) ∧
      (canPromote || canDemote) = true then
    (if canPromote then ["admin"] else []) ++ (if canDemote then ["anggota"] else [])
  else []

/-- The state of the view `Manage` that the role change reads and writes. -/
structure ManageState where
  users : List User
  selectedUser : Option User
  newRole : String
  showModal : Bool
  deriving DecidableEq, Repr

/-- `handleRoleChange`, lines 56-60. -/
def handleRoleChange (s : ManageState) (targetUser : User) (role : String) : ManageState :=
  { s with selectedUser := some targetUser, newRole := role, showModal := true }

/-- The update `confirmRoleChange` issues (lines 62-69), as `(id, role)` of
`.update({ role: newRole }).eq('id', selectedUser.id)`; `none` when it returns at line 63. -/
def confirmRoleChange (s : ManageState) : Option (String × String) :=
  match s.selectedUser with
  | none => none
  | some selectedUser => if s.newRole = "" then none else some (selectedUser.id, s.newRole)

/-- The `users` table after `.update({ role: newRole }).eq('id', id)`. -/
def updateRole (users : List User) (id : String) (newRole : String) : List User :=
  users.map (fun u => if u.id = id then { u with role := newRole } else u)

/-- The number of users of a role, as in `getRoleStats`. -/
def roleCount (users : List User) (role : String) : Nat :=
  (users.filter (fun u => decide (u.role = role))).length

/-- A users list for examples: one super-admin, one admin, two members. -/
def sampleUsers : List User :=
  [⟨"s", "Sari", "10000001", "super_admin"⟩, ⟨"a", "Adi", "10000002", "admin"⟩,
   ⟨"b", "Budi", "10000003", "anggota"⟩, ⟨"c", "Citra", "10000004", "anggota"⟩]

/-! ## Attendance view: approval (`Attendance.jsx`) -/

/-- The update `approveAttendance` issues, lines 175-182. -/
structure AttendanceUpdate where
  id : String
  status : String
  approved_by : String
  approved_at : String
  deriving DecidableEq, Repr

/-- `approveAttendance(attendanceId, status)`, lines 173-193: the update sent to the store;
`now` is `new Date().toISOString()`.  With no session user, `user.id` throws and nothing is
sent. -/
def approveAttendance (user : Option User) (now : String) (attendanceId status : String) :
    Option AttendanceUpdate :=
  user.map (fun u => ⟨attendanceId, status, u.id, now⟩)

/-- The statuses `approveAttendance(attendance.id, ·)` can be invoked with from the row of
`attendance` (lines 771-796): both buttons when `canApprove(attendance)`, else none. -/
def approvalButtons (user : Option User) (attendance : Attendance) : List String :=
  if user.map (·.role) = some "admin" ∨ user.map (·.role) = some "super_admin" then
    if canApprove user attendance then ["approved", "rejected"] else []
  else []

/-- The `absensi` table after an update of `approveAttendance`: the rows with the id of
the update get its status and time, and the name of the approver is joined in. -/
def applyApproval (absensi : List Attendance) (upd : AttendanceUpdate) (approver : String) :
    List Attendance :=
  absensi.map (fun a =>
    if a.id = upd.id then
      { a with status := upd.status, approver := some approver,
               approved_at := some upd.approved_at }
    else a)

/-- A click on an approval button: who clicks, when, on which row, which button. -/
structure ApprovalClick where
  user : User
  now : String
  attendanceId : String
  status : String
  deriving DecidableEq, Repr

/-- Whether the view offers the click: the row is listed and the button is rendered. -/
def clickOffered (absensi : List Attendance) (c : ApprovalClick) : Bool :=
  absensi.any (fun a => decide (a.id = c.attendanceId) &&
    decide (c.status ∈ approvalButtons (some c.user) a))

/-- One step of the attendance state machine: an offered click runs `approveAttendance`
and the store applies its update; any other click leaves the table unchanged. -/
def approvalStep (absensi : List Attendance) (c : ApprovalClick) : List Attendance :=
  if clickOffered absensi c then
    match approveAttendance (some c.user) c.now c.attendanceId c.status with
    | some upd => applyApproval absensi upd c.user.nama_lengkap
    | none => absensi
  else absensi

/-- A run of the state machine. -/
def approvalRun (absensi : List Attendance) (clicks : List ApprovalClick) : List Attendance :=
  clicks.foldl approvalStep absensi

/-- An attendance table for examples: a pending row of a member, an approved row of a
member and a pending row of an admin. -/
def sampleAbsensi : List Attendance :=
  [⟨"r1", "b", DayFromYear 2024 + 7, "pending", some ⟨"Budi", "10000003", "anggota"⟩,
     some "Aljabar", "", none, none⟩,
   ⟨"r2", "c", DayFromYear 2024 + 7, "approved", some ⟨"Citra", "10000004", "anggota"⟩,
     some "Aljabar", "", some "Adi", some "2024-01-08T03:00:00.000Z"⟩,
   ⟨"r3", "a", DayFromYear 2024 + 7, "pending", some ⟨"Adi", "10000002", "admin"⟩,
     some "Aljabar", "", none, none⟩]

/-! ## Tasks: completion toggle (`Tasks.jsx`) -/

/-- A row of the `task_completions` table. -/
structure TaskCompletion where
  task_id : String
  user_id : String
  status : String
  completed_at : Option String
  deriving DecidableEq, Repr

/-- The rows `fetchTaskCompletions` gets: `.eq('user_id', user.id)`, lines 51-54. -/
def selectCompletions (task_completions : List TaskCompletion) (userId : String) :
    List TaskCompletion :=
  task_completions.filter (fun c => decide (c.user_id = userId))

/-- `taskCompletions[taskId]` for the map `fetchTaskCompletions` builds from the fetched
rows (lines 58-61): a later row of the same task replaces an earlier one. -/
def completionsMap (data : List TaskCompletion) (taskId : String) : Option TaskCompletion :=
  (data.filter (fun c => decide (c.task_id = taskId))).getLast?

/-- The row `handleToggleCompletion(taskId)` upserts, lines 137-151; `now` is
`new Date().toISOString()`.  With no session user, `user.id` throws and nothing is sent. -/
def handleToggleCompletion (user : Option User) (now : String)
    (taskCompletions : String → Option TaskCompletion) (taskId : String) :
    Option TaskCompletion :=
  user.map (fun u =>
    let currentCompletion := taskCompletions taskId
    let newStatus :=
      if currentCompletion.map (·.status) = some "completed" then "pending" else "completed"
    { task_id := taskId
      user_id := u.id
      status := newStatus
      completed_at := if newStatus = "completed" then some now else none })

/-- The table after `.upsert(row, { onConflict: 'task_id,user_id' })`: a row with the same
task and user is replaced, otherwise the row is inserted. -/
def upsertCompletion (task_completions : List TaskCompletion) (row : TaskCompletion) :
    List TaskCompletion :=
  if task_completions.any
      (fun c => decide (c.task_id = row.task_id) && decide (c.user_id = row.user_id)) then
    task_completions.map (fun c =>
      if c.task_id = row.task_id ∧ c.user_id = row.user_id then row else c)
  else task_completions ++ [row]

/-! ## Registration form (`AuthContainer.jsx`)

A JavaScript string is a `String`; its `length` counts UTF-16 code units, two for a
character outside the basic plane. -/

/-- The `length` of a JavaScript string, in UTF-16 code units. -/
def jsLength (s : String) : Nat :=
  (s.data.map (fun c => if c.toNat < 65536 then 1 else 2)).sum

/-- The characters `String.prototype.trim` strips and `\s` matches: white space and line
terminators. -/
def isJsWhitespace (c : Char) : Bool :=
  decide (c.toNat ∈ [9, 10, 11, 12, 13, 32, 160, 5760, 8232, 8233, 8239, 8287, 12288, 65279]) ||
    (decide (8192 ≤ c.toNat) && decide (c.toNat ≤ 8202))

/-- `s.trim()`. -/
def jsTrim (s : String) : String :=
  ⟨((s.data.dropWhile isJsWhitespace).reverse.dropWhile isJsWhitespace).reverse⟩

/-- The class `[a-zA-Z]`. -/
def isAsciiLetter (c : Char) : Bool :=
  (decide (97 ≤ c.toNat) && decide (c.toNat ≤ 122)) ||
    (decide (65 ≤ c.toNat) && decide (c.toNat ≤ 90))

/-- The class `[a-z]`. -/
def isLowercase (c : Char) : Bool := decide (97 ≤ c.toNat) && decide (c.toNat ≤ 122)

/-- The class `[A-Z]`. -/
def isUppercase (c : Char) : Bool := decide (65 ≤ c.toNat) && decide (c.toNat ≤ 90)

/-- The class `\d`. -/
def isDigit (c : Char) : Bool := decide (48 ≤ c.toNat) && decide (c.toNat ≤ 57)

/-- The class `[!@#$%^&*(),.?":{}|<>]`. -/
def isSymbol (c : Char) : Bool :=
  decide (c ∈ "!@#$%^&*(),.?\":\x7b\x7d|<>".data)

/-- `/^[a-zA-Z\s]+$/.test(s)`. -/
def testLettersAndSpaces (s : String) : Bool :=
  decide (s.data ≠ []) && s.data.all (fun c => isAsciiLetter c || isJsWhitespace c)

/-- `/^\d+$/.test(s)`. -/
def testDigits (s : String) : Bool :=
  decide (s.data ≠ []) && s.data.all isDigit

/-- The result of `checkPasswordStrength`. -/
structure PasswordStrength where
  score : Nat
  text : String
  color : String
  feedback : List String
  deriving DecidableEq, Repr

/-- The table `strength` of lines 103-110, as `(text, color)`; `none` for a score that is
not a key. -/
def strengthLabel (score : Nat) : Option (String × String) :=
  match score with
  | 0 => some ("Sangat Lemah", "text-red-500")
  | 1 => some ("Lemah", "text-red-400")
  | 2 => some ("Sedang", "text-yellow-500")
  | 3 => some ("Baik", "text-blue-500")
  | 4 => some ("Kuat", "text-green-500")
  | 5 => some ("Sangat Kuat", "text-green-600")
  | _ => none

/-- `checkPasswordStrength`, lines 80-113. -/
def checkPasswordStrength (pwd : String) : PasswordStrength :=
  if pwd = "" then { score := 0, text := "", color := "", feedback := [] }
  else
    let c1 := decide (jsLength pwd ≥ 8)
    let c2 := pwd.data.any isLowercase
    let c3 := pwd.data.any isUppercase
    let c4 := pwd.data.any isDigit
    let c5 := pwd.data.any isSymbol
    let score := c1.toNat + c2.toNat + c3.toNat + c4.toNat + c5.toNat
    let feedback :=
      (if c1 then [] else ["minimal 8 karakter"]) ++ (if c2 then [] else ["huruf kecil"]) ++
      (if c3 then [] else ["huruf besar"]) ++ (if c4 then [] else ["angka"]) ++
      (if c5 then [] else ["simbol"])
    { score := score
      text := ((strengthLabel score).map (·.1)).getD ""
      color := ((strengthLabel score).map (·.2)).getD ""
      feedback := feedback }

/-- The effect of lines 132-136 on the state `passwordStrength` (`none` is its initial
value `''`, which has no `score`). -/
def passwordStrengthEffect (isLogin : Bool) (password : String)
    (passwordStrength : Option PasswordStrength) : Option PasswordStrength :=
  if !isLogin && decide (password ≠ "") then some (checkPasswordStrength password)
  else passwordStrength

/-- The state `formData`. -/
structure FormData where
  namaLengkap : String
  npm : String
  password : String
  code : String
  deriving DecidableEq, Repr

/-- The state `formErrors`. -/
structure FormErrors where
  namaLengkap : String
  npm : String
  password : String
  code : String
  deriving DecidableEq, Repr

/-- `passwordStrength.score < 3`, line 66; false for the initial state `''`, whose `score`
is `undefined`. -/
def scoreBelow3 (passwordStrength : Option PasswordStrength) : Bool :=
  match passwordStrength with
  | some p => decide (p.score < 3)
  | none => false

/-- The object `errors` built by `validateForm`, lines 36-73. -/
def validationErrors (formData : FormData) (passwordStrength : Option PasswordStrength) :
    FormErrors :=
  { namaLengkap :=
      if jsTrim formData.namaLengkap = "" then "Nama lengkap harus diisi"
      else if jsLength (jsTrim formData.namaLengkap) < 3 then "Nama lengkap minimal 3 karakter"
      else if !testLettersAndSpaces (jsTrim formData.namaLengkap) then
        "Nama lengkap hanya boleh mengandung huruf dan spasi"
      else ""
    npm :=
      if jsTrim formData.npm = "" then "NPM harus diisi"
      else if !testDigits formData.npm then "NPM harus berupa angka"
      else if jsLength formData.npm < 8 ∨ jsLength formData.npm > 15 then "NPM harus 8-15 digit"
      else ""
    password :=
      if formData.password = "" then "Password harus diisi"
      else if jsLength formData.password < 8 then "Password minimal 8 karakter"
      else if scoreBelow3 passwordStrength then "Password terlalu lemah"
      else ""
    code := if jsTrim formData.code = "" then "Kode registrasi harus diisi" else "" }

/-- `validateForm`, lines 35-77: whether every entry of `errors` is empty. -/
def validateForm (formData : FormData) (passwordStrength : Option PasswordStrength) : Bool :=
  let errors := validationErrors formData passwordStrength
  [errors.namaLengkap, errors.npm, errors.password, errors.code].all (fun error => decide (error = ""))

/-- What `register` of `AuthContext.jsx` returns: `{ success: true, data }` or
`{ success: false, error: error.message }`, the message possibly missing. -/
inductive RegisterReply where
  | success
  | failure (error : Option String)
  deriving DecidableEq, Repr

/-- What a run of `handleRegister` leaves: the calls of `register` it made and the states
`formErrors` (if set), `error` and `success`. -/
structure RegisterOutcome where
  registerCalls : List FormData
  formErrors : Option FormErrors
  error : String
  success : String
  deriving DecidableEq, Repr

/-- `handleRegister`, lines 190-232; `register` is the function of the auth context. -/
def handleRegister (register : FormData → RegisterReply) (formData : FormData)
    (passwordStrength : Option PasswordStrength) : RegisterOutcome :=
  let formErrors := some (validationErrors formData passwordStrength)
  if !validateForm formData passwordStrength then
    { registerCalls := [], formErrors := formErrors, error := "", success := "" }
  else if formData.code ≠ "RH25UN1NDR406" then
    { registerCalls := [], formErrors := formErrors, error := "Kode registrasi salah",
      success := "" }
  else
    match register formData with
    | RegisterReply.success =>
      { registerCalls := [formData], formErrors := formErrors, error := "",
        success := "Registrasi berhasil! Silakan login dengan akun Anda 🎉" }
    | RegisterReply.failure (some error) =>
      { registerCalls := [formData], formErrors := formErrors,
        error := if "duplicate key value".data <:+: error.data then "NPM sudah terdaftar"
                 else error,
        success := "" }
    | RegisterReply.failure none =>
      { registerCalls := [formData], formErrors := formErrors,
        error := "Terjadi kesalahan saat registrasi", success := "" }

/-! ## Session (`AuthContext.jsx`) -/

/-- A row of the `users` table as `select('*')` returns it; it is the session user. -/
structure UserRow where
  id : String
  nama_lengkap : String
  npm : String
  password : String
  role : String
  deriving DecidableEq, Repr

/-- The state of the auth provider: the session user and `localStorage`, the latter as the
value stored under each key (`none` for an absent key). -/
structure AuthState where
  user : Option UserRow
  storage : String → Option String

/-- `localStorage.setItem(key, value)`. -/
def setItem (storage : String → Option String) (key value : String) : String → Option String :=
  fun k => if k = key then some value else storage k

/-- `localStorage.removeItem(key)`. -/
def removeItem (storage : String → Option String) (key : String) : String → Option String :=
  fun k => if k = key then none else storage k

/-- `localStorage.getItem(key)`. -/
def getItem (storage : String → Option String) (key : String) : Option String := storage key

/-- The `data` of the query of `login`, lines 48-53:
`.eq('npm', npm).eq('password', password).single()` gives the row when exactly one row
matches, and an error with no data otherwise. -/
def loginQuery (users : List UserRow) (npm password : String) : Option UserRow :=
  match users.filter (fun u => decide (u.npm = npm) && decide (u.password = password)) with
  | [u] => some u
  | _ => none

/-- What `login` returns. -/
structure LoginResult where
  success : Bool
  data : Option UserRow
  error : Option String
  deriving DecidableEq, Repr

/-- `login`, lines 46-66, on the `data` of its query (`none` when the query returned an
error or no data); `stringify` is `JSON.stringify`. -/
def login (stringify : UserRow → String) (s : AuthState) (data : Option UserRow) :
    AuthState × LoginResult :=
  match data with
  | none => (s, ⟨false, none, some "NPM atau password salah"⟩)
  | some data =>
    ({ user := some data, storage := setItem s.storage "user" (stringify data) },
     ⟨true, some data, none⟩)

/-- `logout`, lines 68-71. -/
def logout (s : AuthState) : AuthState :=
  { user := none, storage := removeItem s.storage "user" }

/-- The session user after the startup effect of lines 18-24 (the state starts as `null`);
`parse` is `JSON.parse`, `none` where it throws. -/
def rehydrate (parse : String → Option UserRow) (storage : String → Option String) :
    Option UserRow :=
  match getItem storage "user" with
  | none => none
  | some storedUser => if storedUser = "" then none else parse storedUser

/-- A users table row for examples. -/
def sampleRow : UserRow := ⟨"b", "Budi", "10000003", "Abcdef12", "anggota"⟩

/-- The JSON text of a row whose fields need no escaping. -/
def sampleStringify (u : UserRow) : String :=
  "\x7b\"id\":\"" ++ u.id ++ "\",\"nama_lengkap\":\"" ++ u.nama_lengkap ++ "\",\"npm\":\"" ++
    u.npm ++ "\",\"password\":\"" ++ u.password ++ "\",\"role\":\"" ++ u.role ++ "\"\x7d"

/-- A parser that knows the text of `sampleRow` only. -/
def sampleParse (s : String) : Option UserRow :=
  if s = sampleStringify sampleRow then some sampleRow else none

/-! ## Layout: notification channel and tabs (`Layout.jsx`) -/

/-- A realtime channel of the client: its name and the filter of its two listeners. -/
structure Channel where
  topic : String
  filter : String
  deriving DecidableEq, Repr

/-- `setupRealTimeNotifications`, lines 40-100: the channel it subscribes, `none` when it
returns at line 41.  The function it returns at lines 97-99 removes this channel. -/
def setupRealTimeNotifications (user : Option User) : Option Channel :=
  user.map (fun u => ⟨"user_notifications", "user_id=eq." ++ u.id⟩)

/-- The channels subscribed at the client, and the cleanup React holds for the effect of
`Layout`: the channel the returned function removes, `none` when the effect returned
nothing. -/
structure LayoutEffect where
  channels : List Channel
  cleanup : Option Channel
  deriving DecidableEq, Repr

/-- A run of the effect of lines 12-17: with a user it calls `setupRealTimeNotifications()`
as a statement, so the function that call returns is dropped and the effect itself returns
nothing. -/
def layoutEffect (channels : List Channel) (user : Option User) : LayoutEffect :=
  match user with
  | some u => { channels := channels ++ (setupRealTimeNotifications (some u)).toList,
                cleanup := none }
  | none => { channels := channels, cleanup := none }

/-- The effect as the specification describes it: the cleanup of
`setupRealTimeNotifications` is handed back as the effect's cleanup. -/
def specLayoutEffect (channels : List Channel) (user : Option User) : LayoutEffect :=
  { channels := channels ++ (setupRealTimeNotifications user).toList,
    cleanup := setupRealTimeNotifications user }

/-- React runs the cleanup of the last effect run, if the effect returned one:
`supabase.removeChannel(notificationChannel)`. -/
def runCleanup (s : LayoutEffect) : List Channel :=
  match s.cleanup with
  | some channel => s.channels.erase channel
  | none => s.channels

/-- The channels left subscribed after `Layout` is mounted for a user and unmounted. -/
def mountUnmount (effect : List Channel → Option User → LayoutEffect) (user : Option User) :
    List Channel :=
  runCleanup (effect [] user)

/-- The channels subscribed after `Layout` is mounted for a user and the user changes:
React runs the cleanup of the first run, then the effect again. -/
def mountChangeUser (effect : List Channel → Option User → LayoutEffect)
    (user next : Option User) : List Channel :=
  (effect (runCleanup (effect [] user)) next).channels

/-- An entry of `tabs`. -/
structure Tab where
  id : String
  label : String
  deriving DecidableEq, Repr

/-- `tabs`, lines 191-201. -/
def layoutTabs (user : Option User) : List Tab :=
  let tabs : List Tab :=
    [⟨"dashboard", "Home"⟩, ⟨"jadwal", "Jadwal"⟩, ⟨"tugas", "Tugas"⟩, ⟨"absensi", "Absensi"⟩]
  if user.map (·.role) = some "super_admin" then tabs ++ [⟨"manage", "Kelola"⟩] else tabs

/-! ## Attendance view: page buttons (`Attendance.jsx`, lines 805-846) -/

/-- The page number of the button at position `index`, lines 822-831. -/
def pageNum (totalPages currentPage : Nat) (index : Nat) : Int :=
  if totalPages ≤ 5 then (index : Int) + 1
  else if currentPage ≤ 3 then (index : Int) + 1
  else if (currentPage : Int) ≥ (totalPages : Int) - 2 then (totalPages : Int) - 4 + index
  else (currentPage : Int) - 2 + index

/-- The page numbers of the buttons the view renders, lines 805-846: the pagination block is
rendered only under `totalPages > 1 &&` (line 805), and in it
`[...Array(Math.min(5, totalPages))].map(...)` gives one button for each index. -/
def pageButtons (totalPages currentPage : Nat) : List Int :=
  if totalPages > 1 then (List.range (min 5 totalPages)).map (pageNum totalPages currentPage)
  else []

/-- `totalPages` of line 392: `Math.ceil(attendanceData.length / itemsPerPage)`, with
`itemsPerPage` 10 (line 35). -/
def totalPagesOf (length : Nat) : Nat := (length + 9) / 10

/-- The length of `currentItems`, lines 389-391: the slice of `attendanceData` from
`currentPage * 10 - 10` to `currentPage * 10`. -/
def currentItemsLength (length currentPage : Nat) : Nat :=
  min (currentPage * 10) length - min (currentPage * 10 - 10) length

/-- The page buttons shown for `length` rows: the table and the pagination block under it
are rendered under `currentItems.length > 0 ?` (line 640). -/
def renderedPageButtons (length currentPage : Nat) : List Int :=
  if currentItemsLength length currentPage > 0 then
    pageButtons (totalPagesOf length) currentPage
  else []

/-! ## Tasks: filters and personal statistics (`Tasks.jsx`) -/

/-- A row of the `tugas` table; `tenggat_waktu` is the time value of
`new Date(task.tenggat_waktu)`, `none` for an invalid date. -/
structure Task where
  id : String
  mata_kuliah : String
  deskripsi : String
  tenggat_waktu : Option Int
  deriving DecidableEq, Repr

/-- `isTaskOverdue`, lines 168-170, `now` being the time value of `new Date()`; a
comparison with an invalid date is false. -/
def isTaskOverdue (now : Int) (deadline : Option Int) : Bool :=
  match deadline with
  | some d => decide (d < now)
  | none => false

/-- `taskCompletions[task.id]?.status === 'completed'`. -/
def isCompleted (taskCompletions : String → Option TaskCompletion) (task : Task) : Bool :=
  decide ((taskCompletions task.id).map (·.status) = some "completed")

/-- `getFilteredTasks`, lines 194-211, for the state `filter`. -/
def getFilteredTasks (now : Int) (tasks : List Task)
    (taskCompletions : String → Option TaskCompletion) (filter : String) : List Task :=
  tasks.filter (fun task =>
    let isCompleted := isCompleted taskCompletions task
    let isOverdue := isTaskOverdue now task.tenggat_waktu && !isCompleted
    if filter = "completed" then isCompleted
    else if filter = "pending" then !isCompleted && !isOverdue
    else if filter = "overdue" then isOverdue
    else true)

/-- What `getPersonalTaskStats` returns. -/
structure PersonalTaskStats where
  total : Int
  completed : Int
  pending : Int
  overdue : Int
  deriving DecidableEq, Repr

/-- `getPersonalTaskStats`, lines 213-221. -/
def getPersonalTaskStats (now : Int) (tasks : List Task)
    (taskCompletions : String → Option TaskCompletion) : PersonalTaskStats :=
  let completedTasks : Int :=
    (tasks.filter (fun task => isCompleted taskCompletions task)).length
  let overdueTasks : Int :=
    (tasks.filter (fun task =>
      !isCompleted taskCompletions task && isTaskOverdue now task.tenggat_waktu)).length
  let pendingTasks : Int := (tasks.length : Int) - completedTasks - overdueTasks
  { total := tasks.length, completed := completedTasks, pending := pendingTasks,
    overdue := overdueTasks }

/-! ## Password generator (`AuthContainer.jsx`, lines 116-123) -/

/-- The alphabet `chars`. -/
def chars : String :=
  "ABCDEFGHIJKLMNOPQRSTUVWXYZabcdefghijklmnopqrstuvwxyz0123456789!@#$%^&*"

/-- `generatePassword`: twelve characters `chars.charAt(Math.floor(Math.random() * 70))`;
`draw i` is the index of the `i`-th round, an integer from 0 to 69 since `Math.random()`
is at least 0 and below 1. -/
def generatePassword (draw : Fin 12 → Fin 70) : String :=
  ⟨(List.finRange 12).map (fun i => chars.data.getD (draw i).val ' ')⟩

/-! ## Failure handling of the handlers

Each handler below has the shape
`try { const { error } = await <call>; if (error) throw error; ... } catch (error) { ... }`.
What is recorded is what its `catch` block does. -/

/-- What a `catch` block does for the user: a line on the console, a pop-up. -/
inductive Effect where
  | consoleError (message : String)
  | alert (message : String)
  deriving DecidableEq, Repr

/-- The handlers of the views Attendance, UserManagement, Tasks, Schedule and Layout that
inspect the `error` of their remote call. -/
inductive Handler where
  | attendanceFetchTodaySchedules
  | attendanceFetchAttendanceData
  | attendanceSubmitAttendance
  | attendanceApproveAttendance
  | attendanceDownloadExcel
  | manageFetchUsers
  | manageConfirmRoleChange
  | tasksFetchTasks
  | tasksFetchTaskCompletions
  | tasksFetchTaskStats
  | tasksFetchSchedules
  | tasksHandleDelete
  | tasksHandleToggleCompletion
  | tasksHandleSubmit
  | scheduleFetchSchedules
  | scheduleHandleDelete
  | scheduleHandleSubmit
  | layoutFetchNotifications
  | layoutMarkAsRead
  | layoutMarkAllAsRead
  | layoutDeleteNotification
  deriving DecidableEq, Repr

/-- The `catch` block of each handler, statement by statement. -/
def catchBlock : Handler → List Effect
  | Handler.attendanceFetchTodaySchedules =>
    [Effect.consoleError "Error fetching today schedules:"]
  | Handler.attendanceFetchAttendanceData =>
    [Effect.consoleError "Error fetching attendance data:"]
  | Handler.attendanceSubmitAttendance =>
    [Effect.consoleError "Error submitting attendance:",
     Effect.alert "Gagal melakukan absensi. Silakan coba lagi."]
  | Handler.attendanceApproveAttendance =>
    [Effect.consoleError "Error updating attendance:",
     Effect.alert "Gagal memperbarui status absensi."]
  | Handler.attendanceDownloadExcel =>
    [Effect.consoleError "Error downloading Excel:",
     Effect.alert "Gagal mengunduh data. Silakan coba lagi."]
  | Handler.manageFetchUsers => [Effect.consoleError "Error fetching users:"]
  | Handler.manageConfirmRoleChange =>
    [Effect.consoleError "Error updating user role:", Effect.alert "Gagal mengubah role user"]
  | Handler.tasksFetchTasks => [Effect.consoleError "Error fetching tasks:"]
  | Handler.tasksFetchTaskCompletions => [Effect.consoleError "Error fetching task completions:"]
  | Handler.tasksFetchTaskStats => [Effect.consoleError "Error fetching task stats:"]
  | Handler.tasksFetchSchedules => [Effect.consoleError "Error fetching schedules:"]
  | Handler.tasksHandleDelete =>
    [Effect.consoleError "Error deleting task:", Effect.alert "Gagal menghapus tugas"]
  | Handler.tasksHandleToggleCompletion =>
    [Effect.consoleError "Error toggling task completion:",
     Effect.alert "Gagal mengubah status tugas"]
  | Handler.tasksHandleSubmit =>
    [Effect.consoleError "Error saving task:", Effect.alert "Gagal menyimpan tugas"]
  | Handler.scheduleFetchSchedules => [Effect.consoleError "Error fetching schedules:"]
  | Handler.scheduleHandleDelete =>
    [Effect.consoleError "Error deleting schedule:", Effect.alert "Gagal menghapus jadwal"]
  | Handler.scheduleHandleSubmit =>
    [Effect.consoleError "Error saving schedule:", Effect.alert "Gagal menyimpan jadwal"]
  | Handler.layoutFetchNotifications => [Effect.consoleError "Error fetching notifications:"]
  | Handler.layoutMarkAsRead => [Effect.consoleError "Error marking notification as read:"]
  | Handler.layoutMarkAllAsRead =>
    [Effect.consoleError "Error marking all notifications as read:"]
  | Handler.layoutDeleteNotification => [Effect.consoleError "Error deleting notification:"]

/-- What the user gets from a handler whose remote call returned `error` (`none` when the
call succeeded; the messages of the success path are not recorded): the thrown error is
caught by the handler's own `catch`, so nothing propagates. -/
def onCallResult (h : Handler) (error : Option String) : List Effect :=
  match error with
  | none => []
  | some _ => catchBlock h

/-- Whether an effect is a pop-up. -/
def Effect.isAlert : Effect → Bool
  | Effect.alert _ => true
  | Effect.consoleError _ => false

/-- Whether an effect is a line on the console. -/
def Effect.isLog : Effect → Bool
  | Effect.consoleError _ => true
  | Effect.alert _ => false

/-- The handlers a user action starts in the views Attendance, UserManagement, Tasks and
Schedule. -/
def actionHandlers : List Handler :=
  [Handler.attendanceSubmitAttendance, Handler.attendanceApproveAttendance,
   Handler.attendanceDownloadExcel, Handler.manageConfirmRoleChange,
   Handler.tasksHandleDelete, Handler.tasksHandleToggleCompletion, Handler.tasksHandleSubmit,
   Handler.scheduleHandleDelete, Handler.scheduleHandleSubmit]

/-! ## Theorems: authorization predicates -/

/-- C1: `canApprove` is true exactly when the row is pending and either the session user is
super_admin and the submitter is admin, or the session user is admin and the submitter is
anggota; every other combination gives false, in particular every actor whose role is
anggota. -/
theorem canApprove_iff (user : Option User) (attendance : Attendance) :
    (canApprove user attendance = true ↔
      attendance.status = "pending" ∧
        ((user.map (·.role) = some "super_admin" ∧
            attendance.users.map (·.role) = some "admin") ∨
         (user.map (·.role) = some "admin" ∧
            attendance.users.map (·.role) = some "anggota"))) ∧
    (∀ id nama npm : String,
      canApprove (some ⟨id, nama, npm, "anggota"⟩) attendance = false) := by
  unfold canApprove
  constructor
  · by_cases h1 : user.map (·.role) = some "super_admin"
    · simp [h1]
      tauto
    · by_cases h2 : user.map (·.role) = some "admin"
      · simp [h2]
        tauto
      · simp [h1, h2]
  · intro id nama npm
    simp

/-- C2: `canPromoteToAdmin` is true exactly when the actor is super_admin, the target is
anggota, the target is not the actor, and the fetched users list holds fewer than 2 admins;
it is false otherwise, and on every list that holds exactly 2 admins it is false. -/
theorem canPromoteToAdmin_iff (user : Option User) (users : List User) (targetUser : User) :
    (canPromoteToAdmin user users targetUser = true ↔
      user.map (·.role) = some "super_admin" ∧
      targetUser.role = "anggota" ∧
      some targetUser.id ≠ user.map (·.id) ∧
      (users.filter (fun u => decide (u.role = "admin"))).length < 2) ∧
    (∀ i1 n1 p1 i2 n2 p2 : String,
      ((⟨i1, n1, p1, "admin"⟩ :: ⟨i2, n2, p2, "admin"⟩ ::
          users.filter (fun u => !decide (u.role = "admin"))).filter
            (fun u => decide (u.role = "admin"))).length = 2 ∧
      canPromoteToAdmin user
        (⟨i1, n1, p1, "admin"⟩ :: ⟨i2, n2, p2, "admin"⟩ ::
          users.filter (fun u => !decide (u.role = "admin"))) targetUser = false) := by
  unfold canPromoteToAdmin
  constructor
  · by_cases h1 : user.map (·.role) = some "super_admin"
    · by_cases h2 : targetUser.role = "super_admin"
      · simp [h1, h2]
      · by_cases h3 : some targetUser.id = user.map (·.id)
        · simp [h1, h2, h3]
        · by_cases h4 : (users.filter (fun u => decide (u.role = "admin"))).length < 2
          · simp [h1, h2, h3, h4]
          · simp [h1, h2, h3, h4]
    · simp [h1]
  · intro i1 n1 p1 i2 n2 p2
    have hnil : (users.filter (fun u => !decide (u.role = "admin"))).filter
        (fun u => decide (u.role = "admin")) = [] := by
      rw [List.filter_filter]
      simp
    simp [List.filter_cons, hnil]

/-- C3: `canDemoteFromAdmin` is true exactly when the actor is super_admin, the target is
admin and the target is not the actor. -/
theorem canDemoteFromAdmin_iff (user : Option User) (targetUser : User) :
    canDemoteFromAdmin user targetUser = true ↔
      user.map (·.role) = some "super_admin" ∧
      targetUser.role = "admin" ∧
      some targetUser.id ≠ user.map (·.id) := by
  unfold canDemoteFromAdmin
  by_cases h1 : user.map (·.role) = some "super_admin"
  · by_cases h3 : some targetUser.id = user.map (·.id)
    · simp [h1, h3]
    · simp [h1, h3]
  · simp [h1]

/-! ## Lemmas: time values -/

theorem YearFromDay_spec (d : Int) :
    DayFromYear (YearFromDay d) ≤ d ∧ d < DayFromYear (YearFromDay d + 1) := by
  unfold YearFromDay
  simp only
  split_ifs with h1 h2
  · refine ⟨h1, ?_⟩
    unfold DayFromYear at *
    omega
  · exact ⟨h2, by omega⟩
  · refine ⟨?_, ?_⟩
    · unfold DayFromYear at *
      omega
    · simp only [sub_add_cancel]
      omega

theorem setDateBack_fixedZone (tz now : Int) (i : Nat) :
    setDateBack (fixedZone tz) now i = now - (i : Int) * msPerDay := by
  simp only [setDateBack, fixedZone, LocalTime]
  omega

theorem Day_setDateBack (tz now : Int) (i : Nat) :
    Day (setDateBack (fixedZone tz) now i) = Day now - i := by
  rw [setDateBack_fixedZone]
  unfold Day msPerDay
  omega

theorem toISODate_setDateBack (tz now : Int) (i : Nat) :
    toISODate (setDateBack (fixedZone tz) now i) = Day now - i := Day_setDateBack tz now i

theorem getDay_setDateBack (tz now : Int) (i : Nat) :
    getDay tz (setDateBack (fixedZone tz) now i) = (Day (LocalTime tz now) - i + 4) % 7 := by
  rw [setDateBack_fixedZone]
  unfold getDay Day LocalTime msPerDay msPerMinute
  omega

/-! ## Theorems: weekly attendance of the dashboard -/

theorem attendanceLoop_fst (tz now : Int) (data : List AttendanceRecord) :
    (attendanceLoop (fixedZone tz) now (some data)).1 =
      (List.range 7).map (fun k => (⟨getDay tz (setDateBack (fixedZone tz) now (6 - k)),
        (data.filter (fun a => decide (a.tanggal = Day now - ((6 - k : Nat) : Int)) &&
          decide (a.status = "approved"))).length⟩ : ChartPoint)) := by
  have hz : ∀ t : Int, (fixedZone tz).utcOffset t = tz := fun _ => rfl
  simp [attendanceLoop, attendanceStep, List.range, List.range.loop, List.filter_filter,
    toISODate_setDateBack, Bool.and_comm, hz]

theorem attendanceLoop_fst_none (tz now : Int) :
    (attendanceLoop (fixedZone tz) now none).1 =
      (List.range 7).map
        (fun k => (⟨getDay tz (setDateBack (fixedZone tz) now (6 - k)), 0⟩ : ChartPoint)) := by
  have hz : ∀ t : Int, (fixedZone tz).utcOffset t = tz := fun _ => rfl
  simp [attendanceLoop, attendanceStep, List.range, List.range.loop, hz]

theorem filter_day_inWindow (tz now : Int) (i : Nat) (hi : i ≤ 6)
    (data : List AttendanceRecord) :
    (data.filter (inWindow now)).filter
        (fun a => decide (a.tanggal = toISODate (setDateBack (fixedZone tz) now i))) =
      data.filter (fun a => decide (a.tanggal = toISODate (setDateBack (fixedZone tz) now i))) := by
  rw [List.filter_filter]
  apply List.filter_congr
  intro a _
  simp only [inWindow, toISODate_setDateBack]
  by_cases h : a.tanggal = Day now - (i : Int)
  · simp [h]
    omega
  · simp [h]

theorem attendanceLoop_inWindow (tz now : Int) (data : List AttendanceRecord) :
    attendanceLoop (fixedZone tz) now (some (data.filter (inWindow now))) =
      attendanceLoop (fixedZone tz) now (some data) := by
  simp only [attendanceLoop, attendanceStep, List.foldl, Option.map_some', Option.getD_some]
  rw [filter_day_inWindow tz now 6 (by omega), filter_day_inWindow tz now 5 (by omega),
    filter_day_inWindow tz now 4 (by omega), filter_day_inWindow tz now 3 (by omega),
    filter_day_inWindow tz now 2 (by omega), filter_day_inWindow tz now 1 (by omega),
    filter_day_inWindow tz now 0 (by omega)]

/-- In a zone of constant offset the series `weeklyAttendance` has exactly 7 points; point
`k` (0 ≤ k < 7) is for the date today − (6 − k), today being the date of `toISOString`, so
the points run from the oldest day to today; its count is the number of fetched records
with that date and status 'approved' (0 when there is none), and its label is the weekday
the runtime shows for the instant `6 − k` days before now. -/
theorem weeklyAttendance_series_fixedZone (tz now : Int) (data : List AttendanceRecord) :
    (fetchAttendanceData (fixedZone tz) now (some data)).1.length = 7 ∧
    (fetchAttendanceData (fixedZone tz) now (some data)).1 =
      (List.range 7).map (fun k => (⟨getDay tz (setDateBack (fixedZone tz) now (6 - k)),
        (data.filter (fun a => decide (a.tanggal = Day now - ((6 - k : Nat) : Int)) &&
          decide (a.status = "approved"))).length⟩ : ChartPoint)) ∧
    (∀ k : Fin 7,
      toISODate (setDateBack (fixedZone tz) now (6 - k)) = Day now - ((6 - k : Nat) : Int)) ∧
    (fetchAttendanceData (fixedZone tz) now (some [])).1 =
      (List.range 7).map
        (fun k => (⟨getDay tz (setDateBack (fixedZone tz) now (6 - k)), 0⟩ : ChartPoint)) ∧
    (fetchAttendanceData (fixedZone tz) now none).1 =
      (List.range 7).map
        (fun k => (⟨getDay tz (setDateBack (fixedZone tz) now (6 - k)), 0⟩ : ChartPoint)) := by
  refine ⟨?_, ?_, ?_, ?_, ?_⟩
  · simp [fetchAttendanceData, attendanceLoop_fst]
  · simp only [fetchAttendanceData, attendanceLoop_fst]
  · intro k
    exact toISODate_setDateBack tz now _
  · simp [fetchAttendanceData, attendanceLoop_fst]
  · simp only [fetchAttendanceData, attendanceLoop_fst_none]

/-- In a zone of constant offset only the records dated within today − 6 .. today (today as
shown by `toISOString`) enter the rate and the series: dropping every other fetched record
changes neither; the query's lower bound is today − 7, so a row of the user dated
today − 7 is fetched, and it changes neither the rate nor any point. -/
theorem window_only_fixedZone (tz now : Int) (data : List AttendanceRecord) :
    fetchAttendanceData (fixedZone tz) now (some data) =
        fetchAttendanceData (fixedZone tz) now (some (data.filter (inWindow now))) ∧
    oneWeekAgoStr (fixedZone tz) now = Day now - 7 ∧
    (∀ (uid status : String) (row : Attendance),
      selectAttendance (fixedZone tz) now uid
          [{ row with user_id := uid, tanggal := Day now - 7, status := status }] =
        [⟨Day now - 7, status⟩]) ∧
    (∀ status : String,
      fetchAttendanceData (fixedZone tz) now (some (⟨Day now - 7, status⟩ :: data)) =
        fetchAttendanceData (fixedZone tz) now (some data)) := by
  have key : ∀ d : List AttendanceRecord, fetchAttendanceData (fixedZone tz) now (some d) =
      fetchAttendanceData (fixedZone tz) now (some (d.filter (inWindow now))) := by
    intro d
    simp only [fetchAttendanceData, attendanceLoop_inWindow]
  have h7 : oneWeekAgoStr (fixedZone tz) now = Day now - 7 := by
    simp [oneWeekAgoStr, toISODate_setDateBack]
  refine ⟨key data, h7, ?_, ?_⟩
  · intro uid status row
    simp [selectAttendance, h7]
  · intro status
    rw [key (_ :: data), key data]
    congr 2
    simp [List.filter_cons, inWindow]
    omega

/-- C6: in New York at 2024-03-10 23:30 UTC (19:30 local time, on the day daylight saving
began) the seven iterations have the date strings today − 5, .., today − 1, today, today:
`setDate` keeps the local time of day, so the instant one local day back is 23 hours back
and `toISOString` shows the same UTC date for it.  A record approved today is counted in
the last two points, and a record approved on today − 6 in no point, while in the series
of the claim point 0 is for today − 6 and only point 6 is for today. -/
theorem weeklyAttendance_repeats_day :
    toISODate springForwardEvening = DayFromYear 2024 + 69 ∧
    Day (LocalTime (newYork2024.utcOffset springForwardEvening) springForwardEvening) =
      DayFromYear 2024 + 69 ∧
    [6, 5, 4, 3, 2, 1, 0].map
        (fun i => toISODate (setDateBack newYork2024 springForwardEvening i) -
          toISODate springForwardEvening) = [-5, -4, -3, -2, -1, 0, 0] ∧
    (fetchAttendanceData newYork2024 springForwardEvening
        (some [⟨DayFromYear 2024 + 69, "approved"⟩, ⟨DayFromYear 2024 + 63, "approved"⟩])).1 =
      [⟨1, 0⟩, ⟨2, 0⟩, ⟨3, 0⟩, ⟨4, 0⟩, ⟨5, 0⟩, ⟨6, 1⟩, ⟨0, 1⟩] ∧
    (List.range 7).map (fun k =>
        ([⟨DayFromYear 2024 + 69, "approved"⟩, ⟨DayFromYear 2024 + 63, "approved"⟩].filter
          (fun a : AttendanceRecord =>
            decide (a.tanggal = toISODate springForwardEvening - ((6 - k : Nat) : Int)) &&
            decide (a.status = "approved"))).length) = [1, 0, 0, 0, 0, 0, 1] := by
  decide

/-- C7: in New York at 2024-11-05 00:30 UTC (Monday 2024-11-04, 19:30 local time, the day
after daylight saving ended) the lower bound of the query is today − 8 and the iteration
`i = 6` has the date string today − 7 (2024-10-29), today being the date of `toISOString`:
a fetched record of that date, outside today − 6 .. today, is counted in point 0 of the
series and makes the rate 100, which is 0 without it.  The iterations have the dates
today − 7, .., today − 3, today − 1, today, so a record dated today − 2, inside the range,
enters neither. -/
theorem stale_record_enters :
    toISODate afterFallBack = DayFromYear 2024 + 309 ∧
    oneWeekAgoStr newYork2024 afterFallBack = DayFromYear 2024 + 309 - 8 ∧
    selectAttendance newYork2024 afterFallBack "u1"
        [⟨"r1", "u1", DayFromYear 2024 + 309 - 7, "approved", none, none, "", none, none⟩] =
      [⟨DayFromYear 2024 + 309 - 7, "approved"⟩] ∧
    inWindow afterFallBack ⟨DayFromYear 2024 + 309 - 7, "approved"⟩ = false ∧
    [6, 5, 4, 3, 2, 1, 0].map
        (fun i => toISODate (setDateBack newYork2024 afterFallBack i) -
          toISODate afterFallBack) = [-7, -6, -5, -4, -3, -1, 0] ∧
    fetchAttendanceData newYork2024 afterFallBack
        (some [⟨DayFromYear 2024 + 309 - 7, "approved"⟩]) =
      ([⟨2, 1⟩, ⟨3, 0⟩, ⟨4, 0⟩, ⟨5, 0⟩, ⟨6, 0⟩, ⟨0, 0⟩, ⟨1, 0⟩], 100) ∧
    fetchAttendanceData newYork2024 afterFallBack (some []) =
      ([⟨2, 0⟩, ⟨3, 0⟩, ⟨4, 0⟩, ⟨5, 0⟩, ⟨6, 0⟩, ⟨0, 0⟩, ⟨1, 0⟩], 0) ∧
    inWindow afterFallBack ⟨DayFromYear 2024 + 309 - 2, "approved"⟩ = true ∧
    fetchAttendanceData newYork2024 afterFallBack
        (some [⟨DayFromYear 2024 + 309 - 2, "approved"⟩]) =
      fetchAttendanceData newYork2024 afterFallBack (some []) := by
  decide

/-- The same in Berlin at 2024-10-29 00:30 UTC (01:30 local time of the same date, two days
after daylight saving ended): the local date and the UTC date are both 2024-10-29, the
iteration `i = 6` has the date string 2024-10-22, and a fetched record of that date is
counted in point 0 and makes the rate 100. -/
theorem stale_record_enters_berlin :
    toISODate berlinEarly = DayFromYear 2024 + 302 ∧
    Day (LocalTime (berlin2024.utcOffset berlinEarly) berlinEarly) = DayFromYear 2024 + 302 ∧
    oneWeekAgoStr berlin2024 berlinEarly = DayFromYear 2024 + 302 - 8 ∧
    toISODate (setDateBack berlin2024 berlinEarly 6) = DayFromYear 2024 + 302 - 7 ∧
    fetchAttendanceData berlin2024 berlinEarly
        (some [⟨DayFromYear 2024 + 302 - 7, "approved"⟩]) =
      ([⟨3, 1⟩, ⟨4, 0⟩, ⟨5, 0⟩, ⟨6, 0⟩, ⟨0, 0⟩, ⟨1, 0⟩, ⟨2, 0⟩], 100) ∧
    (fetchAttendanceData berlin2024 berlinEarly (some [])).2 = 0 := by
  decide

theorem getDay_weekday_of_no_skew (tz now : Int) (i : Nat)
    (hskew : Day (LocalTime tz now) = Day now) :
    (1 ≤ getDay tz (setDateBack (fixedZone tz) now i) ∧
        getDay tz (setDateBack (fixedZone tz) now i) ≤ 5) ↔
      isWeekday (Day now - i) = true := by
  rw [getDay_setDateBack, hskew]
  simp [isWeekday]

/-- One day's share of the weekday records. -/
theorem length_day_share (tz now : Int) (i : Nat) (hskew : Day (LocalTime tz now) = Day now)
    (p : AttendanceRecord → Bool) (data : List AttendanceRecord) :
    ((weekdayShare (fixedZone tz) now data i).filter p).length =
      data.countP (fun a => decide (a.tanggal = Day now - i) && isWeekday a.tanggal && p a) := by
  have hz : ∀ t : Int, (fixedZone tz).utcOffset t = tz := fun _ => rfl
  unfold weekdayShare
  rw [List.countP_eq_length_filter, toISODate_setDateBack, hz]
  by_cases hw : isWeekday (Day now - i) = true
  · rw [if_pos ((getDay_weekday_of_no_skew tz now i hskew).2 hw), List.filter_filter]
    congr 1
    apply List.filter_congr
    intro a _
    by_cases h : a.tanggal = Day now - (i : Int)
    · simp [h, hw]
    · simp [h]
  · rw [if_neg (fun h => hw ((getDay_weekday_of_no_skew tz now i hskew).1 h))]
    symm
    simp only [List.filter_nil, List.length_nil, List.length_eq_zero, List.filter_eq_nil_iff]
    intro a _
    by_cases h : a.tanggal = Day now - (i : Int)
    · simp [h, hw]
    · simp [h]

theorem countP_days (now : Int) (q : AttendanceRecord → Bool) (data : List AttendanceRecord) :
    data.countP (fun a => decide (a.tanggal = Day now - (6 : Nat)) && q a) +
    data.countP (fun a => decide (a.tanggal = Day now - (5 : Nat)) && q a) +
    data.countP (fun a => decide (a.tanggal = Day now - (4 : Nat)) && q a) +
    data.countP (fun a => decide (a.tanggal = Day now - (3 : Nat)) && q a) +
    data.countP (fun a => decide (a.tanggal = Day now - (2 : Nat)) && q a) +
    data.countP (fun a => decide (a.tanggal = Day now - (1 : Nat)) && q a) +
    data.countP (fun a => decide (a.tanggal = Day now - (0 : Nat)) && q a) =
    data.countP (fun a => inWindow now a && q a) := by
  induction data with
  | nil => simp
  | cons a l ih =>
    simp only [List.countP_cons]
    rw [← ih]
    by_cases hq : q a = true
    · simp only [hq, Bool.and_true, inWindow, decide_eq_true_eq, Bool.and_eq_true]
      split_ifs <;> omega
    · simp [hq]

theorem attendanceStep_snd (zone : TimeZone) (now : Int) (data : List AttendanceRecord)
    (acc : List ChartPoint × List AttendanceRecord) (i : Nat) :
    (attendanceStep zone now (some data) acc i).2 = acc.2 ++ weekdayShare zone now data i := by
  unfold attendanceStep weekdayShare
  simp only [Option.map_some', Option.getD_some]
  split_ifs <;> simp

theorem attendanceLoop_snd (zone : TimeZone) (now : Int) (data : List AttendanceRecord) :
    (attendanceLoop zone now (some data)).2 =
      weekdayShare zone now data 6 ++ weekdayShare zone now data 5 ++
      weekdayShare zone now data 4 ++ weekdayShare zone now data 3 ++
      weekdayShare zone now data 2 ++ weekdayShare zone now data 1 ++
      weekdayShare zone now data 0 := by
  simp only [attendanceLoop, List.foldl, attendanceStep_snd, List.nil_append]

/-- With the local date equal to the UTC date, the records collected for the rate are the
weekday records of the window: for every further filter `p` the same number of them. -/
theorem length_weekday_filter (tz now : Int) (hskew : Day (LocalTime tz now) = Day now)
    (p : AttendanceRecord → Bool) (data : List AttendanceRecord) :
    ((attendanceLoop (fixedZone tz) now (some data)).2.filter p).length =
      data.countP (fun a => inWindow now a && (isWeekday a.tanggal && p a)) := by
  rw [← countP_days, attendanceLoop_snd]
  have h := fun i => length_day_share tz now i hskew p data
  simp only [Bool.and_assoc] at h
  simp only [List.filter_append, List.length_append, h]

/-- The model of binary64 on known values: `23 / 40` is `0x3FE2666666666666`, that is
`2589569785738035 / 2 ^ 52`; its product with 100 is `8092405580431359 / 2 ^ 47`, just below
57.5; `3 / 5 * 100` is exactly 60, and `1 / 8` is exact. -/
theorem roundToF64_values :
    (divF64 23 40).1 * 2 ^ 52 = 2589569785738035 * (divF64 23 40).2 ∧
    (mulF64 (divF64 23 40) 100).1 * 2 ^ 47 = 8092405580431359 * (mulF64 (divF64 23 40) 100).2 ∧
    2 * (mulF64 (divF64 23 40) 100).1 < 115 * (mulF64 (divF64 23 40) 100).2 ∧
    (mulF64 (divF64 3 5) 100).1 = 60 * (mulF64 (divF64 3 5) 100).2 ∧
    (divF64 1 8).1 * 8 = (divF64 1 8).2 := by
  decide

/-- The binary64 computation `Math.round((a / t) * 100)` agrees with the exact
`round(100 a / t)` for every total below 40. -/
theorem rate_exact_below_40 :
    ∀ t < 40, ∀ a ≤ t, (if t > 0 then mathRound (mulF64 (divF64 a t) 100) else 0) =
      specRate a t := by
  decide!

/-- With the local date equal to the UTC date and fewer than 40 weekday records in the
window, the rate is `round(100 × A / T)` over the weekday records of the window. -/
theorem attendanceRate_eq_specRate (tz now : Int) (data : List AttendanceRecord)
    (hskew : Day (LocalTime tz now) = Day now)
    (hT : data.countP (fun a => inWindow now a && isWeekday a.tanggal) < 40) :
    (fetchAttendanceData (fixedZone tz) now (some data)).2 =
      specRate
        (data.countP (fun a => inWindow now a && isWeekday a.tanggal &&
          decide (a.status = "approved")))
        (data.countP (fun a => inWindow now a && isWeekday a.tanggal)) := by
  have hA := length_weekday_filter tz now hskew (fun a => decide (a.status = "approved")) data
  have hTot := length_weekday_filter tz now hskew (fun _ => true) data
  simp only [List.filter_true, Bool.and_true] at hTot
  simp only [← Bool.and_assoc] at hA
  simp only [fetchAttendanceData, attendanceRateOf]
  rw [hA, hTot]
  apply rate_exact_below_40 _ hT
  apply List.countP_mono_left
  intro a _ h
  simp only [Bool.and_eq_true] at h
  simp only [Bool.and_eq_true]
  exact h.1

/-- With the local date equal to the UTC date, records dated on a Saturday or Sunday do not
enter the rate. -/
theorem rate_ignores_weekend_of_no_skew (tz now : Int) (data : List AttendanceRecord)
    (hskew : Day (LocalTime tz now) = Day now) :
    (fetchAttendanceData (fixedZone tz) now (some data)).2 =
      (fetchAttendanceData (fixedZone tz) now
        (some (data.filter (fun a => isWeekday a.tanggal)))).2 := by
  have h : ∀ p : AttendanceRecord → Bool,
      ((attendanceLoop (fixedZone tz) now (some data)).2.filter p).length =
      ((attendanceLoop (fixedZone tz) now
        (some (data.filter (fun a => isWeekday a.tanggal)))).2.filter p).length := by
    intro p
    rw [length_weekday_filter tz now hskew, length_weekday_filter tz now hskew,
      List.countP_filter]
    congr 1
    funext a
    cases inWindow now a <;> cases isWeekday a.tanggal <;> simp
  have hTot := h (fun _ => true)
  simp only [List.filter_true] at hTot
  simp only [fetchAttendanceData, attendanceRateOf, h, hTot]

/-- C4: at forty weekday records of the window, 23 of them approved, with the local date
equal to the UTC date, `fetchAttendanceData` stores the rate 57, while
`round(100 × 23 / 40) = round(57.5)` is 58: the binary64 product `(23 / 40) * 100` is
57.49999999999999.  With 5 weekday records, 3 approved and 2 pending, the rate is 60. -/
theorem attendanceRate_forty :
    fortyRecords.length = 40 ∧
    (fortyRecords.filter (fun a => decide (a.status = "approved"))).length = 23 ∧
    fortyRecords.all (fun a => inWindow fridayNoon a && isWeekday a.tanggal) = true ∧
    Day (LocalTime 420 fridayNoon) = Day fridayNoon ∧
    (fetchAttendanceData (fixedZone 420) fridayNoon (some fortyRecords)).2 = 57 ∧
    specRate 23 40 = 58 ∧
    (fetchAttendanceData (fixedZone 420) fridayNoon (some fiveRecords)).2 = 60 := by
  decide

/-- C5: on Monday 2024-01-08 at 03:00 in a zone seven hours east of UTC, one approved
record dated Sunday 2024-01-07 makes the rate 100, and without it the rate is 0: the
record is matched by the UTC date of the instant and classified by its local weekday.
It is counted in the last point of the series. -/
theorem weekend_record_enters_rate :
    isWeekday (DayFromYear 2024 + 6) = false ∧
    getDay 0 (newDate (DayFromYear 2024 + 6)) = 0 ∧
    toISODate mondayEarly = DayFromYear 2024 + 6 ∧
    getDay 420 mondayEarly = 1 ∧
    (fetchAttendanceData (fixedZone 420) mondayEarly (some [⟨DayFromYear 2024 + 6, "approved"⟩])).2 = 100 ∧
    (fetchAttendanceData (fixedZone 420) mondayEarly (some [])).2 = 0 ∧
    (fetchAttendanceData (fixedZone 420) mondayEarly (some [⟨DayFromYear 2024 + 6, "approved"⟩])).1.getLast? =
      some ⟨1, 1⟩ := by
  decide

/-! ## Theorems: week numbers and weekly groups of the export -/

/-- `getWeekNumber` counts whole days elapsed since January 1 (January 1 is day 0): for a
year outside 0..99 it is `ceil((day_of_year − 1) / 7)`. -/
theorem getWeekNumber_eq (tz date : Int)
    (hy : ¬ (0 ≤ getFullYear tz date ∧ getFullYear tz date ≤ 99)) :
    getWeekNumber tz date = ceilDiv (dayOfYear tz date - 1) 7 := by
  unfold getWeekNumber dayOfYear newDateJan1
  simp only [if_neg hy]
  congr 1
  generalize DayFromYear (getFullYear tz date) = D
  unfold Day LocalTime msPerDay msPerMinute
  omega

/-- C8: for 2024-01-01 (`new Date('2024-01-01')`, in a zone seven hours east of UTC as in
UTC itself) `getWeekNumber` returns 0, while the day of the year is 1 and
`ceil(1 / 7) = 1`; for 2024-01-08 it returns 1 while `ceil(8 / 7) = 2`. -/
theorem getWeekNumber_jan1 :
    getWeekNumber 420 (newDate (DayFromYear 2024)) = 0 ∧
    getWeekNumber 0 (newDate (DayFromYear 2024)) = 0 ∧
    dayOfYear 420 (newDate (DayFromYear 2024)) = 1 ∧
    specWeekNumber 420 (newDate (DayFromYear 2024)) = 1 ∧
    getWeekNumber 420 (newDate (DayFromYear 2024 + 7)) = 1 ∧
    dayOfYear 420 (newDate (DayFromYear 2024 + 7)) = 8 ∧
    specWeekNumber 420 (newDate (DayFromYear 2024 + 7)) = 2 := by
  decide

/-- C9: `getWeekNumber` is monotonic non-decreasing within a year: for two dates
`d1 ≤ d2` of the same calendar year (as `getFullYear` gives it),
`getWeekNumber d1 ≤ getWeekNumber d2`. -/
theorem getWeekNumber_mono (tz d1 d2 : Int) (h : d1 ≤ d2)
    (hy : getFullYear tz d1 = getFullYear tz d2) :
    getWeekNumber tz d1 ≤ getWeekNumber tz d2 := by
  unfold getWeekNumber
  rw [hy]
  generalize newDateJan1 tz (getFullYear tz d2) = S
  simp only [ceilDiv, msPerDay]
  omega

/-- The dates 2024-01-04 and 2024-02-10 lie in the same year and get weeks 1 and 6. -/
theorem getWeekNumber_mono_witness :
    newDate (DayFromYear 2024 + 3) ≤ newDate (DayFromYear 2024 + 40) ∧
    getFullYear 420 (newDate (DayFromYear 2024 + 3)) =
      getFullYear 420 (newDate (DayFromYear 2024 + 40)) ∧
    getWeekNumber 420 (newDate (DayFromYear 2024 + 3)) = 1 ∧
    getWeekNumber 420 (newDate (DayFromYear 2024 + 40)) = 6 ∧
    getWeekNumber 420 (newDate (DayFromYear 2024 + 3)) ≤
      getWeekNumber 420 (newDate (DayFromYear 2024 + 40)) :=
  ⟨by decide, by decide, by decide, by decide,
    getWeekNumber_mono 420 _ _ (by decide) (by decide)⟩

theorem weekRows_pushWeek (w : List (Int × List ExportRow)) (k : Int) (r : ExportRow)
    (week : Int) :
    weekRows (pushWeek w k r) week =
      if week = k then some ((weekRows w k).getD [] ++ [r]) else weekRows w week := by
  induction w with
  | nil =>
    by_cases h : week = k
    · simp [pushWeek, weekRows, h]
    · simp [pushWeek, weekRows, h, Ne.symm h]
  | cons p rest ih =>
    obtain ⟨k', rows⟩ := p
    unfold weekRows at ih ⊢
    by_cases hk : k' = k
    · by_cases h : week = k
      · simp [pushWeek, hk, h]
      · simp [pushWeek, hk, h, Ne.symm h]
    · by_cases h : week = k
      · simp [pushWeek, hk, h, List.find?_cons]
        simpa [h] using ih
      · by_cases h' : k' = week
        · simp [pushWeek, hk, h, h', List.find?_cons]
        · simp [pushWeek, hk, h, h', List.find?_cons]
          simpa [h] using ih

theorem keys_pushWeek (w : List (Int × List ExportRow)) (k : Int) (r : ExportRow) :
    (pushWeek w k r).map (·.1) = if k ∈ w.map (·.1) then w.map (·.1) else w.map (·.1) ++ [k] := by
  induction w with
  | nil => simp [pushWeek]
  | cons p rest ih =>
    obtain ⟨k', rows⟩ := p
    by_cases hk : k' = k
    · simp [pushWeek, hk]
    · simp only [pushWeek, hk, if_false, List.map_cons, ih, List.mem_cons, Ne.symm hk, false_or]
      split_ifs <;> simp

theorem nodup_keys_pushWeek (w : List (Int × List ExportRow)) (k : Int) (r : ExportRow)
    (h : (w.map (·.1)).Nodup) : ((pushWeek w k r).map (·.1)).Nodup := by
  rw [keys_pushWeek]
  split_ifs with hk
  · exact h
  · rw [List.nodup_append]
    refine ⟨h, List.nodup_singleton k, ?_⟩
    intro a ha hb
    simp only [List.mem_singleton] at hb
    exact hk (hb ▸ ha)

theorem total_pushWeek (w : List (Int × List ExportRow)) (k : Int) (r : ExportRow) :
    ((pushWeek w k r).map (fun p => p.2.length)).sum = (w.map (fun p => p.2.length)).sum + 1 := by
  induction w with
  | nil => simp [pushWeek]
  | cons p rest ih =>
    obtain ⟨k', rows⟩ := p
    by_cases hk : k' = k
    · simp [pushWeek, hk]
      omega
    · simp [pushWeek, hk, ih]
      omega

theorem weekRows_foldl (tz : Int) (rows : List Attendance) (week : Int) :
    ∀ w : List (Int × List ExportRow),
      weekRows (rows.foldl (fun weeklyData a =>
          pushWeek weeklyData (weekOf tz a) (exportRow tz a)) w) week =
        if rows.filter (fun a => decide (weekOf tz a = week)) = [] then weekRows w week
        else some ((weekRows w week).getD [] ++
          (rows.filter (fun a => decide (weekOf tz a = week))).map (exportRow tz)) := by
  induction rows with
  | nil => intro w; simp
  | cons a l ih =>
    intro w
    rw [List.foldl_cons, ih, weekRows_pushWeek]
    by_cases h : weekOf tz a = week
    · subst h
      by_cases hl : l.filter (fun b => decide (weekOf tz b = weekOf tz a)) = []
      · simp [List.filter_cons, hl]
      · simp [List.filter_cons, hl]
    · simp [List.filter_cons, h, Ne.symm h]

theorem nodup_keys_foldl (tz : Int) (rows : List Attendance) :
    ∀ w : List (Int × List ExportRow), (w.map (·.1)).Nodup →
      ((rows.foldl (fun weeklyData a =>
          pushWeek weeklyData (weekOf tz a) (exportRow tz a)) w).map (·.1)).Nodup := by
  induction rows with
  | nil => intro w h; simpa using h
  | cons a l ih =>
    intro w h
    rw [List.foldl_cons]
    exact ih _ (nodup_keys_pushWeek w _ _ h)

theorem total_foldl (tz : Int) (rows : List Attendance) :
    ∀ w : List (Int × List ExportRow),
      ((rows.foldl (fun weeklyData a =>
          pushWeek weeklyData (weekOf tz a) (exportRow tz a)) w).map
            (fun p => p.2.length)).sum =
        (w.map (fun p => p.2.length)).sum + rows.length := by
  induction rows with
  | nil => intro w; simp
  | cons a l ih =>
    intro w
    rw [List.foldl_cons, ih, total_pushWeek, List.length_cons]
    omega

/-- C10: in `downloadExcel` the weekly groups have distinct keys; the group of week `w` is
exactly the sub-list of the rows whose `getWeekNumber(new Date(tanggal))` is `w`, in input
order (and there is no group for a week no row has), so every row is in exactly one group
and the groups hold as many lines as there are rows; the key depends on the row's date
only: replacing every other field of a row leaves its week unchanged; every line of the
group of `w` carries 'Minggu Ke' = `w`. -/
theorem groupByWeek_spec (tz : Int) (allAttendance : List Attendance) :
    ((groupByWeek tz allAttendance).map (·.1)).Nodup ∧
    (∀ week : Int, weekRows (groupByWeek tz allAttendance) week =
      if allAttendance.filter (fun a => decide (weekOf tz a = week)) = [] then none
      else some ((allAttendance.filter (fun a => decide (weekOf tz a = week))).map
        (exportRow tz))) ∧
    ((groupByWeek tz allAttendance).map (fun p => p.2.length)).sum = allAttendance.length ∧
    (∀ a b : Attendance, weekOf tz { b with tanggal := a.tanggal } = weekOf tz a) ∧
    (∀ a : Attendance, weekOf tz a = getWeekNumber tz (newDate a.tanggal) ∧
      (exportRow tz a).mingguKe = weekOf tz a) := by
  refine ⟨?_, ?_, ?_, ?_, ?_⟩
  · exact nodup_keys_foldl tz allAttendance [] (by simp)
  · intro week
    unfold groupByWeek
    rw [weekRows_foldl]
    simp [weekRows]
  · unfold groupByWeek
    rw [total_foldl]
    simp
  · intro a b
    rfl
  · intro a
    exact ⟨rfl, rfl⟩
/-! ## Theorems: the workbook of the export -/

theorem mem_keys_foldl (tz : Int) (rows : List Attendance) (k : Int) :
    ∀ w : List (Int × List ExportRow),
      k ∈ (rows.foldl (fun weeklyData a =>
          pushWeek weeklyData (weekOf tz a) (exportRow tz a)) w).map (·.1) ↔
        k ∈ w.map (·.1) ∨ ∃ a ∈ rows, weekOf tz a = k := by
  induction rows with
  | nil => intro w; simp
  | cons a l ih =>
    intro w
    rw [List.foldl_cons, ih, keys_pushWeek]
    by_cases hk : weekOf tz a ∈ w.map (·.1)
    · rw [if_pos hk]
      constructor
      · rintro (h | ⟨b, hb, rfl⟩)
        · exact Or.inl h
        · exact Or.inr ⟨b, List.mem_cons_of_mem _ hb, rfl⟩
      · rintro (h | ⟨b, hb, rfl⟩)
        · exact Or.inl h
        · rcases List.mem_cons.1 hb with rfl | hb
          · exact Or.inl hk
          · exact Or.inr ⟨b, hb, rfl⟩
    · rw [if_neg hk]
      constructor
      · rintro (h | ⟨b, hb, rfl⟩)
        · rcases List.mem_append.1 h with h | h
          · exact Or.inl h
          · exact Or.inr ⟨a, List.mem_cons_self _ _, (List.mem_singleton.1 h).symm⟩
        · exact Or.inr ⟨b, List.mem_cons_of_mem _ hb, rfl⟩
      · rintro (h | ⟨b, hb, rfl⟩)
        · exact Or.inl (List.mem_append_left _ h)
        · rcases List.mem_cons.1 hb with rfl | hb
          · exact Or.inl (List.mem_append_right _ (List.mem_singleton.2 rfl))
          · exact Or.inr ⟨b, hb, rfl⟩

theorem mem_keys_groupByWeek (tz : Int) (rows : List Attendance) (k : Int) :
    k ∈ (groupByWeek tz rows).map (·.1) ↔ ∃ a ∈ rows, weekOf tz a = k := by
  unfold groupByWeek
  rw [mem_keys_foldl]
  simp

theorem nodup_keys_groupByWeek (tz : Int) (rows : List Attendance) :
    ((groupByWeek tz rows).map (·.1)).Nodup :=
  nodup_keys_foldl tz rows [] (by simp)

theorem weekRows_groupByWeek_getD (tz : Int) (rows : List Attendance) (week : Int) :
    (weekRows (groupByWeek tz rows) week).getD [] =
      (rows.filter (fun a => decide (weekOf tz a = week))).map (exportRow tz) := by
  unfold groupByWeek
  rw [weekRows_foldl]
  by_cases h : rows.filter (fun a => decide (weekOf tz a = week)) = []
  · simp [h, weekRows]
  · simp [h, weekRows]

theorem objectKeys_perm (weeklyData : List (Int × List ExportRow)) :
    (objectKeys weeklyData).Perm (weeklyData.map (·.1)) := by
  unfold objectKeys
  exact ((List.perm_insertionSort _ _).append_right _).trans
    (List.filter_append_perm isArrayIndex _)

theorem sortedWeeks_perm (weeklyData : List (Int × List ExportRow)) :
    (sortedWeeks weeklyData).Perm (weeklyData.map (·.1)) :=
  (List.perm_insertionSort _ _).trans (objectKeys_perm weeklyData)

theorem sortedWeeks_sorted (tz : Int) (rows : List Attendance) :
    (sortedWeeks (groupByWeek tz rows)).Sorted (· < ·) := by
  apply List.Sorted.lt_of_le
  · exact List.sorted_insertionSort _ _
  · exact (sortedWeeks_perm _).nodup_iff.2 (nodup_keys_groupByWeek tz rows)

theorem foldl_bookAppendSheet (g : Int → SheetData) (n : Int → String) (weeks : List Int) :
    ∀ wb : List Sheet,
      weeks.foldl (fun wb week => bookAppendSheet wb (g week) (n week)) wb =
        wb ++ weeks.map (fun week => ⟨n week, g week⟩) := by
  induction weeks with
  | nil => intro wb; simp
  | cons w l ih =>
    intro wb
    rw [List.foldl_cons, ih]
    simp [bookAppendSheet]

theorem exportRow_status (tz : Int) (a : Attendance) :
    ((exportRow tz a).status = "Disetujui" ↔ a.status = "approved") ∧
    ((exportRow tz a).status = "Ditolak" ↔ a.status ≠ "approved" ∧ a.status = "rejected") ∧
    ((exportRow tz a).status = "Menunggu" ↔ a.status ≠ "approved" ∧ a.status ≠ "rejected") := by
  unfold exportRow
  simp only
  by_cases h1 : a.status = "approved"
  · simp [h1]
  · by_cases h2 : a.status = "rejected"
    · simp [h1, h2]
    · simp [h1, h2]

theorem count_exported (tz : Int) (l : List Attendance) :
    (((l.map (exportRow tz)).filter (fun a => decide (a.status = "Disetujui"))).length =
      (l.filter (fun a => decide (a.status = "approved"))).length) ∧
    (((l.map (exportRow tz)).filter (fun a => decide (a.status = "Menunggu"))).length =
      (l.filter (fun a => !decide (a.status = "approved") &&
        !decide (a.status = "rejected"))).length) ∧
    (((l.map (exportRow tz)).filter (fun a => decide (a.status = "Ditolak"))).length =
      (l.filter (fun a => !decide (a.status = "approved") &&
        decide (a.status = "rejected"))).length) := by
  refine ⟨?_, ?_, ?_⟩ <;>
  · rw [List.filter_map, List.length_map]
    congr 1
    apply List.filter_congr
    intro a _
    have h := exportRow_status tz a
    simp only [Function.comp]
    by_cases h1 : a.status = "approved" <;> by_cases h2 : a.status = "rejected" <;>
      simp [h.1, h.2.1, h.2.2, h1, h2]

theorem count_three (l : List Attendance) :
    (l.filter (fun a => decide (a.status = "approved"))).length +
      (l.filter (fun a => !decide (a.status = "approved") &&
        !decide (a.status = "rejected"))).length +
      (l.filter (fun a => !decide (a.status = "approved") &&
        decide (a.status = "rejected"))).length = l.length := by
  induction l with
  | nil => simp
  | cons a l ih =>
    by_cases h1 : a.status = "approved" <;> by_cases h2 : a.status = "rejected" <;>
      simp [List.filter_cons, h1, h2] <;> omega

theorem weekRows_of_mem (weeklyData : List (Int × List ExportRow))
    (h : (weeklyData.map (·.1)).Nodup) :
    ∀ p ∈ weeklyData, weekRows weeklyData p.1 = some p.2 := by
  induction weeklyData with
  | nil => simp
  | cons q rest ih =>
    intro p hp
    rw [List.map_cons, List.nodup_cons] at h
    rcases List.mem_cons.1 hp with rfl | hp
    · simp [weekRows]
    · have hne : q.1 ≠ p.1 := by
        intro e
        exact h.1 (e ▸ List.mem_map_of_mem _ hp)
      have := ih h.2 p hp
      simpa [weekRows, List.find?_cons, hne] using this

theorem sum_objectKeys (weeklyData : List (Int × List ExportRow))
    (h : (weeklyData.map (·.1)).Nodup) :
    ((objectKeys weeklyData).map (fun week => ((weekRows weeklyData week).getD []).length)).sum =
      (weeklyData.map (fun p => p.2.length)).sum := by
  rw [((objectKeys_perm weeklyData).map _).sum_eq, List.map_map]
  congr 1
  apply List.map_congr_left
  intro p hp
  simp [weekRows_of_mem weeklyData h p hp]

/-- C11: for a non-empty list of rows the workbook of `downloadExcel` is the sheet
'Ringkasan' followed by one sheet 'Minggu w' for each week number `w` that occurs among the
rows, each once, in ascending order of `w`, the sheet of `w` holding the rows of week `w`;
so it has (number of distinct week numbers) + 1 sheets. -/
theorem downloadExcel_sheets (tz : Int) (allAttendance : List Attendance)
    (hne : allAttendance ≠ []) :
    downloadExcel tz (some allAttendance) =
      ⟨"Ringkasan", SheetData.summary (summaryData (groupByWeek tz allAttendance))⟩ ::
        (sortedWeeks (groupByWeek tz allAttendance)).map (fun w =>
          ⟨"Minggu " ++ toString w, SheetData.weekly
            ((allAttendance.filter (fun a => decide (weekOf tz a = w))).map (exportRow tz))⟩) ∧
    (sortedWeeks (groupByWeek tz allAttendance)).Sorted (· < ·) ∧
    (∀ w : Int, w ∈ sortedWeeks (groupByWeek tz allAttendance) ↔
      ∃ a ∈ allAttendance, weekOf tz a = w) ∧
    sortedWeeks (groupByWeek tz allAttendance) ≠ [] ∧
    (downloadExcel tz (some allAttendance)).length =
      ((allAttendance.map (weekOf tz)).dedup).length + 1 := by
  have hmem : ∀ w : Int, w ∈ sortedWeeks (groupByWeek tz allAttendance) ↔
      ∃ a ∈ allAttendance, weekOf tz a = w := by
    intro w
    rw [(sortedWeeks_perm _).mem_iff, mem_keys_groupByWeek]
  have hbook : downloadExcel tz (some allAttendance) =
      ⟨"Ringkasan", SheetData.summary (summaryData (groupByWeek tz allAttendance))⟩ ::
        (sortedWeeks (groupByWeek tz allAttendance)).map (fun w =>
          ⟨"Minggu " ++ toString w, SheetData.weekly
            ((allAttendance.filter (fun a => decide (weekOf tz a = w))).map
              (exportRow tz))⟩) := by
    simp only [downloadExcel, Option.getD_some]
    rw [foldl_bookAppendSheet]
    simp only [weekRows_groupByWeek_getD, bookAppendSheet, List.nil_append,
      List.singleton_append]
  refine ⟨hbook, sortedWeeks_sorted tz allAttendance, hmem, ?_, ?_⟩
  · obtain ⟨a, l, rfl⟩ := List.exists_cons_of_ne_nil hne
    exact List.ne_nil_of_mem ((hmem (weekOf tz a)).2 ⟨a, List.mem_cons_self _ _, rfl⟩)
  · rw [hbook, List.length_cons, List.length_map]
    congr 1
    apply List.Perm.length_eq
    rw [List.perm_ext_iff_of_nodup
      ((sortedWeeks_perm _).nodup_iff.2 (nodup_keys_groupByWeek tz allAttendance))
      (List.nodup_dedup _)]
    intro w
    rw [hmem, List.mem_dedup, List.mem_map]

/-- Thirteen rows spanning weeks 5 and 6 give the sheets 'Ringkasan', 'Minggu 5' and
'Minggu 6'. -/
theorem downloadExcel_sheets_witness :
    thirteenRows ≠ [] ∧
    thirteenRows.length = 13 ∧
    (downloadExcel 420 (some thirteenRows)).map (·.name) =
      ["Ringkasan", "Minggu 5", "Minggu 6"] ∧
    (downloadExcel 420 (some thirteenRows)).length =
      ((thirteenRows.map (weekOf 420)).dedup).length + 1 :=
  ⟨by decide, by decide, by decide,
    (downloadExcel_sheets 420 thirteenRows (by decide)).2.2.2.2⟩

/-- C12: the summary sheet has one line per week that occurs among the rows; the line of
week `w` carries as 'Total Absensi' the number of rows of the weekly sheet of `w`, and as
'Disetujui', 'Menunggu' and 'Ditolak' the numbers of rows of week `w` whose status is
approved, neither approved nor rejected, and rejected; the three add up to the total, and
the totals of all lines add up to the number of exported rows. -/
theorem summaryData_spec (tz : Int) (allAttendance : List Attendance) :
    summaryData (groupByWeek tz allAttendance) =
      (objectKeys (groupByWeek tz allAttendance)).map (fun w =>
        { mingguKe := w
          totalAbsensi := (allAttendance.filter (fun a => decide (weekOf tz a = w))).length
          disetujui := ((allAttendance.filter (fun a => decide (weekOf tz a = w))).filter
            (fun a => decide (a.status = "approved"))).length
          menunggu := ((allAttendance.filter (fun a => decide (weekOf tz a = w))).filter
            (fun a => !decide (a.status = "approved") && !decide (a.status = "rejected"))).length
          ditolak := ((allAttendance.filter (fun a => decide (weekOf tz a = w))).filter
            (fun a => !decide (a.status = "approved") && decide (a.status = "rejected"))).length }) ∧
    (objectKeys (groupByWeek tz allAttendance)).Nodup ∧
    (∀ w : Int, w ∈ objectKeys (groupByWeek tz allAttendance) ↔
      ∃ a ∈ allAttendance, weekOf tz a = w) ∧
    (∀ w : Int, ((weekRows (groupByWeek tz allAttendance) w).getD []).length =
      (allAttendance.filter (fun a => decide (weekOf tz a = w))).length) ∧
    (summaryData (groupByWeek tz allAttendance)).all
      (fun l => decide (l.disetujui + l.menunggu + l.ditolak = l.totalAbsensi)) = true ∧
    ((summaryData (groupByWeek tz allAttendance)).map (·.totalAbsensi)).sum =
      allAttendance.length := by
  have hsum : summaryData (groupByWeek tz allAttendance) =
      (objectKeys (groupByWeek tz allAttendance)).map (fun w =>
        { mingguKe := w
          totalAbsensi := (allAttendance.filter (fun a => decide (weekOf tz a = w))).length
          disetujui := ((allAttendance.filter (fun a => decide (weekOf tz a = w))).filter
            (fun a => decide (a.status = "approved"))).length
          menunggu := ((allAttendance.filter (fun a => decide (weekOf tz a = w))).filter
            (fun a => !decide (a.status = "approved") && !decide (a.status = "rejected"))).length
          ditolak := ((allAttendance.filter (fun a => decide (weekOf tz a = w))).filter
            (fun a => !decide (a.status = "approved") &&
              decide (a.status = "rejected"))).length }) := by
    unfold summaryData
    apply List.map_congr_left
    intro w _
    simp only [weekRows_groupByWeek_getD, List.length_map, count_exported]
  refine ⟨hsum, ?_, ?_, ?_, ?_, ?_⟩
  · exact (objectKeys_perm _).nodup_iff.2 (nodup_keys_groupByWeek tz allAttendance)
  · intro w
    rw [(objectKeys_perm _).mem_iff, mem_keys_groupByWeek]
  · intro w
    rw [weekRows_groupByWeek_getD, List.length_map]
  · rw [hsum, List.all_eq_true]
    intro l hl
    obtain ⟨w, _, rfl⟩ := List.mem_map.1 hl
    simp only [decide_eq_true_eq]
    exact count_three _
  · have h := sum_objectKeys (groupByWeek tz allAttendance)
      (nodup_keys_groupByWeek tz allAttendance)
    have ht := total_foldl tz allAttendance []
    simp only [List.map_nil, List.sum_nil, Nat.zero_add] at ht
    unfold summaryData
    rw [List.map_map]
    exact h.trans ht
/-! ## Theorems: role changes -/

/-- C13: a user cannot change their own role: for a target with the id of the session user
`canPromoteToAdmin` and `canDemoteFromAdmin` are false and the row has no role-change
button, so `handleRoleChange` is not invoked with the actor as target; with no session user
every row is without buttons. -/
theorem no_self_role_change (user : User) (users : List User) (targetUser : User) :
    canPromoteToAdmin (some user) users { targetUser with id := user.id } = false ∧
    canDemoteFromAdmin (some user) { targetUser with id := user.id } = false ∧
    roleButtons (some user) users { targetUser with id := user.id } = [] ∧
    canPromoteToAdmin none users targetUser = false ∧
    canDemoteFromAdmin none targetUser = false ∧
    roleButtons none users targetUser = [] := by
  refine ⟨?_, ?_, ?_, ?_, ?_, ?_⟩
  · unfold canPromoteToAdmin
    by_cases h1 : user.role = "super_admin" <;> by_cases h2 : targetUser.role = "super_admin" <;>
      simp [h1, h2]
  · unfold canDemoteFromAdmin
    by_cases h1 : user.role = "super_admin" <;> simp [h1]
  · simp [roleButtons]
  · simp [canPromoteToAdmin]
  · simp [canDemoteFromAdmin]
  · simp [roleButtons]

/-- C14: the buttons of the user-management view invoke `handleRoleChange` with the roles
'admin' and 'anggota' only, and `confirmRoleChange` writes the role the button passed; for
a target whose role is super_admin `canPromoteToAdmin` and `canDemoteFromAdmin` are false
and there is no button. -/
theorem super_admin_untouched (user : Option User) (users : List User) (targetUser : User)
    (s : ManageState) (role : String) :
    (roleButtons user users targetUser).all
      (fun r => decide (r = "admin") || decide (r = "anggota")) = true ∧
    confirmRoleChange (handleRoleChange s targetUser role) =
      (if role = "" then none else some (targetUser.id, role)) ∧
    canPromoteToAdmin user users { targetUser with role := "super_admin" } = false ∧
    canDemoteFromAdmin user { targetUser with role := "super_admin" } = false ∧
    roleButtons user users { targetUser with role := "super_admin" } = [] := by
  have hp : canPromoteToAdmin user users { targetUser with role := "super_admin" } = false := by
    unfold canPromoteToAdmin
    by_cases h1 : user.map (·.role) = some "super_admin" <;> simp [h1]
  have hd : canDemoteFromAdmin user { targetUser with role := "super_admin" } = false := by
    unfold canDemoteFromAdmin
    by_cases h1 : user.map (·.role) = some "super_admin" <;> simp [h1]
  refine ⟨?_, ?_, hp, hd, ?_⟩
  · unfold roleButtons
    simp only
    split_ifs <;> simp
  · simp [confirmRoleChange, handleRoleChange]
  · unfold roleButtons
    simp [hp, hd]

theorem roleCount_updateRole (users : List User) (target : User) (newRole role : String)
    (hid : (users.map (·.id)).Nodup) (hmem : target ∈ users) :
    roleCount (updateRole users target.id newRole) role + (if target.role = role then 1 else 0) =
      roleCount users role + (if newRole = role then 1 else 0) := by
  induction users with
  | nil => simp at hmem
  | cons u l ih =>
    rw [List.map_cons, List.nodup_cons] at hid
    by_cases hu : u.id = target.id
    · have htu : target = u := by
        rcases List.mem_cons.1 hmem with h | h
        · exact h
        · exact absurd (hu ▸ List.mem_map_of_mem (·.id) h) hid.1
      subst htu
      have hl : updateRole l target.id newRole = l := by
        unfold updateRole
        conv_rhs => rw [← List.map_id l]
        apply List.map_congr_left
        intro v hv
        have : v.id ≠ target.id := fun e => hid.1 (e ▸ List.mem_map_of_mem (·.id) hv)
        simp [this]
      have hcons : updateRole (target :: l) target.id newRole =
          { target with role := newRole } :: l := by
        have h : updateRole (target :: l) target.id newRole =
            { target with role := newRole } :: updateRole l target.id newRole := by
          simp [updateRole]
        rw [h, hl]
      rw [hcons]
      unfold roleCount
      by_cases h1 : target.role = role <;> by_cases h2 : newRole = role <;>
        simp [List.filter_cons, h1, h2]
    · have hmem' : target ∈ l := by
        rcases List.mem_cons.1 hmem with h | h
        · exact absurd (h ▸ rfl) hu
        · exact h
      have ih' := ih hid.2 hmem'
      have hcons : updateRole (u :: l) target.id newRole =
          u :: updateRole l target.id newRole := by
        simp [updateRole, hu]
      rw [hcons]
      unfold roleCount at ih' ⊢
      by_cases h3 : u.role = role
      · simp only [List.filter_cons, h3, decide_True, if_true, List.length_cons]
        omega
      · simp only [List.filter_cons, h3, decide_False, if_false, Bool.false_eq_true]
        exact ih'

/-- C15: on a users list with unique ids, at most 2 admins and at most 1 super-admin, a
role change the view permits for a listed target (to admin when `canPromoteToAdmin` holds,
to anggota when `canDemoteFromAdmin` holds, both on that list) gives a list with at most 2
admins and the same number of super-admins. -/
theorem role_counts_invariant (user : Option User) (users : List User) (targetUser : User)
    (hid : (users.map (·.id)).Nodup) (hmem : targetUser ∈ users)
    (hadmin : roleCount users "admin" ≤ 2) (hsuper : roleCount users "super_admin" ≤ 1) :
    (canPromoteToAdmin user users targetUser = true →
      roleCount (updateRole users targetUser.id "admin") "admin" ≤ 2 ∧
      roleCount (updateRole users targetUser.id "admin") "super_admin" =
        roleCount users "super_admin" ∧
      roleCount (updateRole users targetUser.id "admin") "super_admin" ≤ 1) ∧
    (canDemoteFromAdmin user targetUser = true →
      roleCount (updateRole users targetUser.id "anggota") "admin" ≤ 2 ∧
      roleCount (updateRole users targetUser.id "anggota") "super_admin" =
        roleCount users "super_admin" ∧
      roleCount (updateRole users targetUser.id "anggota") "super_admin" ≤ 1) := by
  constructor
  · intro hp
    have hp' : targetUser.role = "anggota" ∧ roleCount users "admin" < 2 := by
      unfold canPromoteToAdmin at hp
      unfold roleCount
      by_cases h1 : user.map (·.role) = some "super_admin"
      · by_cases h2 : targetUser.role = "super_admin"
        · simp [h1, h2] at hp
        · by_cases h3 : some targetUser.id = user.map (·.id)
          · simp [h1, h2, h3] at hp
          · simpa [h1, h2, h3] using hp
      · simp [h1] at hp
    have ha := roleCount_updateRole users targetUser "admin" "admin" hid hmem
    have hs := roleCount_updateRole users targetUser "admin" "super_admin" hid hmem
    simp [hp'.1] at ha hs
    omega
  · intro hd
    have hd' : targetUser.role = "admin" := by
      unfold canDemoteFromAdmin at hd
      by_cases h1 : user.map (·.role) = some "super_admin"
      · by_cases h3 : some targetUser.id = user.map (·.id)
        · simp [h1, h3] at hd
        · simpa [h1, h3] using hd
      · simp [h1] at hd
    have ha := roleCount_updateRole users targetUser "anggota" "admin" hid hmem
    have hs := roleCount_updateRole users targetUser "anggota" "super_admin" hid hmem
    simp [hd'] at ha hs
    omega

/-- On the sample list the super-admin promotes the member Budi: two admins and one
super-admin afterwards. -/
theorem role_counts_invariant_witness :
    (sampleUsers.map (·.id)).Nodup ∧
    roleCount sampleUsers "admin" ≤ 2 ∧ roleCount sampleUsers "super_admin" ≤ 1 ∧
    canPromoteToAdmin (some ⟨"s", "Sari", "10000001", "super_admin"⟩) sampleUsers
      ⟨"b", "Budi", "10000003", "anggota"⟩ = true ∧
    roleCount (updateRole sampleUsers "b" "admin") "admin" = 2 ∧
    roleCount (updateRole sampleUsers "b" "admin") "admin" ≤ 2 :=
  ⟨by decide, by decide, by decide, by decide, by decide,
    ((role_counts_invariant (some ⟨"s", "Sari", "10000001", "super_admin"⟩) sampleUsers
      ⟨"b", "Budi", "10000003", "anggota"⟩ (by decide) (by decide) (by decide)
      (by decide)).1 (by decide)).1⟩

/-! ## Theorems: handlers and the attendance state machine -/

theorem approvalButtons_eq (user : Option User) (attendance : Attendance) :
    approvalButtons user attendance =
      if canApprove user attendance = true then ["approved", "rejected"] else [] := by
  unfold approvalButtons canApprove
  by_cases h1 : user.map (·.role) = some "super_admin"
  · simp [h1]
  · by_cases h2 : user.map (·.role) = some "admin"
    · simp [h2]
    · simp [h1, h2]

/-- C16, as stated, fails: `approveAttendance` sends the update for a row for which
`canApprove` is false (an admin rejecting a row that is already approved), and
`confirmRoleChange` sends the update for a selected member while the users list already
holds two admins, where `canPromoteToAdmin` is false. -/
theorem handlers_do_not_recheck :
    (approveAttendance (some ⟨"a", "Adi", "10000002", "admin"⟩) "2024-01-08T04:00:00.000Z"
        "r2" "rejected" =
      some ⟨"r2", "rejected", "a", "2024-01-08T04:00:00.000Z"⟩ ∧
     canApprove (some ⟨"a", "Adi", "10000002", "admin"⟩)
        ⟨"r2", "c", DayFromYear 2024 + 7, "approved", some ⟨"Citra", "10000004", "anggota"⟩,
          some "Aljabar", "", some "Adi", some "2024-01-08T03:00:00.000Z"⟩ = false) ∧
    (confirmRoleChange ⟨updateRole sampleUsers "b" "admin",
        some ⟨"c", "Citra", "10000004", "anggota"⟩, "admin", true⟩ = some ("c", "admin") ∧
     canPromoteToAdmin (some ⟨"s", "Sari", "10000001", "super_admin"⟩)
        (updateRole sampleUsers "b" "admin") ⟨"c", "Citra", "10000004", "anggota"⟩ = false) ∧
    ¬ (∀ (user : Option User) (now : String) (attendance : Attendance) (status : String),
        (approveAttendance user now attendance.id status).isSome = true →
          canApprove user attendance = true) ∧
    ¬ (∀ (user : Option User) (s : ManageState) (selectedUser : User),
        s.selectedUser = some selectedUser → (confirmRoleChange s).isSome = true →
          (s.newRole = "admin" → canPromoteToAdmin user s.users selectedUser = true) ∧
          (s.newRole = "anggota" → canDemoteFromAdmin user selectedUser = true)) := by
  refine ⟨by decide, by decide, ?_, ?_⟩
  · intro h
    have := h (some ⟨"a", "Adi", "10000002", "admin"⟩) "2024-01-08T04:00:00.000Z"
      ⟨"r2", "c", DayFromYear 2024 + 7, "approved", some ⟨"Citra", "10000004", "anggota"⟩,
        some "Aljabar", "", some "Adi", some "2024-01-08T03:00:00.000Z"⟩ "rejected" (by decide)
    revert this
    decide
  · intro h
    have := (h (some ⟨"s", "Sari", "10000001", "super_admin"⟩)
      ⟨updateRole sampleUsers "b" "admin", some ⟨"c", "Citra", "10000004", "anggota"⟩,
        "admin", true⟩ ⟨"c", "Citra", "10000004", "anggota"⟩ rfl (by decide)).1 rfl
    revert this
    decide

/-- C16, amended: the handlers write without a check of their own: with a session user
`approveAttendance` sends the update for every id and status it is given, and
`confirmRoleChange` sends the update whenever a user is selected and the new role is not
empty.  The authorization is derived when the row is rendered: the approval buttons are
rendered exactly when `canApprove` holds for the row, the button that passes 'admin'
exactly when `canPromoteToAdmin` holds and the button that passes 'anggota' exactly when
`canDemoteFromAdmin` holds, on the users list of that render. -/
theorem authorization_at_render (user : Option User) (u : User) (now id status : String)
    (s : ManageState) (selectedUser : User) (users : List User) (targetUser : User)
    (attendance : Attendance) :
    approveAttendance (some u) now id status = some ⟨id, status, u.id, now⟩ ∧
    approveAttendance none now id status = none ∧
    confirmRoleChange { s with selectedUser := some selectedUser } =
      (if s.newRole = "" then none else some (selectedUser.id, s.newRole)) ∧
    confirmRoleChange { s with selectedUser := none } = none ∧
    approvalButtons user attendance =
      (if canApprove user attendance = true then ["approved", "rejected"] else []) ∧
    ("admin" ∈ roleButtons user users targetUser ↔
      canPromoteToAdmin user users targetUser = true) ∧
    ("anggota" ∈ roleButtons user users targetUser ↔
      canDemoteFromAdmin user targetUser = true) := by
  refine ⟨rfl, rfl, rfl, rfl, approvalButtons_eq user attendance, ?_, ?_⟩
  · unfold roleButtons
    simp only
    by_cases hp : canPromoteToAdmin user users targetUser = true
    · have h := hp
      unfold canPromoteToAdmin at h
      by_cases h1 : user.map (·.role) = some "super_admin"
      · by_cases h3 : some targetUser.id = user.map (·.id)
        · by_cases h2 : targetUser.role = "super_admin" <;> simp [h1, h2, h3] at h
        · simp [hp, h1, h3]
      · simp [h1] at h
    · simp only [Bool.not_eq_true] at hp
      simp only [hp]
      split_ifs <;> simp_all
  · unfold roleButtons
    simp only
    by_cases hd : canDemoteFromAdmin user targetUser = true
    · have h := hd
      unfold canDemoteFromAdmin at h
      by_cases h1 : user.map (·.role) = some "super_admin"
      · by_cases h3 : some targetUser.id = user.map (·.id)
        · simp [h1, h3] at h
        · simp [hd, h1, h3]
      · simp [h1] at h
    · simp only [Bool.not_eq_true] at hd
      simp only [hd]
      split_ifs <;> simp_all

theorem canApprove_pending (user : Option User) (attendance : Attendance)
    (h : canApprove user attendance = true) : attendance.status = "pending" := by
  unfold canApprove at h
  by_cases h1 : user.map (·.role) = some "super_admin"
  · simp [h1] at h
    exact h.2
  · by_cases h2 : user.map (·.role) = some "admin"
    · simp [h2] at h
      exact h.2
    · simp [h1, h2] at h

theorem clickOffered_spec (absensi : List Attendance) (c : ApprovalClick)
    (h : clickOffered absensi c = true) :
    ∃ r ∈ absensi, r.id = c.attendanceId ∧ r.status = "pending" ∧
      (c.status = "approved" ∨ c.status = "rejected") := by
  unfold clickOffered at h
  rw [List.any_eq_true] at h
  obtain ⟨r, hr, h⟩ := h
  simp only [Bool.and_eq_true, decide_eq_true_eq] at h
  obtain ⟨hid, hb⟩ := h
  rw [approvalButtons_eq] at hb
  by_cases hc : canApprove (some c.user) r = true
  · rw [if_pos hc] at hb
    refine ⟨r, hr, hid, canApprove_pending _ _ hc, ?_⟩
    simpa using hb
  · rw [if_neg hc] at hb
    simp at hb

theorem approvalStep_eq (absensi : List Attendance) (c : ApprovalClick) :
    approvalStep absensi c =
      if clickOffered absensi c = true then
        absensi.map (fun a =>
          if a.id = c.attendanceId then
            { a with status := c.status, approver := some c.user.nama_lengkap,
                     approved_at := some c.now }
          else a)
      else absensi := by
  unfold approvalStep approveAttendance applyApproval
  simp

theorem approvalStep_ids (absensi : List Attendance) (c : ApprovalClick) :
    (approvalStep absensi c).map (·.id) = absensi.map (·.id) := by
  rw [approvalStep_eq]
  split_ifs
  · rw [List.map_map]
    apply List.map_congr_left
    intro a _
    simp only [Function.comp]
    split_ifs <;> rfl
  · rfl

theorem approvalStep_keeps_final (absensi : List Attendance) (c : ApprovalClick)
    (hid : (absensi.map (·.id)).Nodup) (a : Attendance) (ha : a ∈ absensi)
    (hfinal : a.status = "approved" ∨ a.status = "rejected") :
    a ∈ approvalStep absensi c := by
  rw [approvalStep_eq]
  split_ifs with hoff
  · obtain ⟨r, hr, hrid, hpending, _⟩ := clickOffered_spec absensi c hoff
    have hne : a.id ≠ c.attendanceId := by
      intro e
      have har : a = r := List.inj_on_of_nodup_map hid ha hr (e.trans hrid.symm)
      rw [har, hpending] at hfinal
      revert hfinal
      decide
    rw [List.mem_map]
    exact ⟨a, ha, by simp [hne]⟩
  · exact ha

/-- C17: on a table with unique ids, a step of the attendance state machine (an approval
click the view offers, carried out by `approveAttendance`) leaves every row as it is,
except that a row whose status is 'pending' may get the status 'approved' or 'rejected';
and a row whose status is 'approved' or 'rejected' is still in the table, unchanged, after
every run of steps. -/
theorem attendance_state_machine (absensi : List Attendance)
    (hid : (absensi.map (·.id)).Nodup) :
    (∀ c : ApprovalClick,
      List.Forall₂
        (fun a a' => a' = a ∨
          (a.status = "pending" ∧ (a'.status = "approved" ∨ a'.status = "rejected") ∧
            a'.id = a.id ∧ a'.user_id = a.user_id ∧ a'.tanggal = a.tanggal ∧
            a'.users = a.users))
        absensi (approvalStep absensi c)) ∧
    (∀ (clicks : List ApprovalClick) (a : Attendance), a ∈ absensi →
      a.status = "approved" ∨ a.status = "rejected" → a ∈ approvalRun absensi clicks) := by
  constructor
  · intro c
    rw [approvalStep_eq]
    split_ifs with hoff
    · obtain ⟨r, hr, hrid, hpending, hstatus⟩ := clickOffered_spec absensi c hoff
      rw [List.forall₂_map_right_iff, List.forall₂_same]
      intro x hx
      by_cases hxid : x.id = c.attendanceId
      · have hxr : x = r := List.inj_on_of_nodup_map hid hx hr (hxid.trans hrid.symm)
        right
        simp only [hxid, if_true]
        exact ⟨hxr ▸ hpending, hstatus, trivial, trivial, trivial, trivial⟩
      · left
        simp [hxid]
    · rw [List.forall₂_same]
      intro x _
      exact Or.inl rfl
  · intro clicks
    unfold approvalRun
    induction clicks generalizing absensi with
    | nil => intro a ha _; simpa using ha
    | cons c l ih =>
      intro a ha hfinal
      rw [List.foldl_cons]
      exact ih (approvalStep absensi c) (by rw [approvalStep_ids]; exact hid) a
        (approvalStep_keeps_final absensi c hid a ha hfinal) hfinal

/-- On the sample table the admin Adi approves the pending row of Budi; the row of Citra,
already approved, is unchanged, also after an attempt to reject it. -/
theorem attendance_state_machine_witness :
    (sampleAbsensi.map (·.id)).Nodup ∧
    ((approvalStep sampleAbsensi
        ⟨⟨"a", "Adi", "10000002", "admin"⟩, "2024-01-08T04:00:00.000Z", "r1", "approved"⟩).map
      (·.status)) = ["approved", "approved", "pending"] ∧
    (∀ c : ApprovalClick,
      List.Forall₂
        (fun a a' => a' = a ∨
          (a.status = "pending" ∧ (a'.status = "approved" ∨ a'.status = "rejected") ∧
            a'.id = a.id ∧ a'.user_id = a.user_id ∧ a'.tanggal = a.tanggal ∧
            a'.users = a.users))
        sampleAbsensi (approvalStep sampleAbsensi c)) :=
  ⟨by decide, by decide, (attendance_state_machine sampleAbsensi (by decide)).1⟩
/-! ## Theorems: task completion toggle -/

theorem completionsMap_upsert (task_completions : List TaskCompletion) (row : TaskCompletion) :
    completionsMap (selectCompletions (upsertCompletion task_completions row) row.user_id)
      row.task_id = some row := by
  unfold completionsMap selectCompletions upsertCompletion
  rw [List.filter_filter]
  split_ifs with hany
  · have hmap : ∀ l : List TaskCompletion,
        (l.map (fun c => if c.task_id = row.task_id ∧ c.user_id = row.user_id then row
          else c)).filter
          (fun c => decide (c.task_id = row.task_id) && decide (c.user_id = row.user_id)) =
        (l.filter (fun c => decide (c.task_id = row.task_id) &&
          decide (c.user_id = row.user_id))).map (fun _ => row) := by
      intro l
      induction l with
      | nil => rfl
      | cons c l ih =>
        by_cases hc : c.task_id = row.task_id ∧ c.user_id = row.user_id
        · rw [List.map_cons, if_pos hc, List.filter_cons, List.filter_cons, ih]
          simp [hc.1, hc.2]
        · have hc' : (decide (c.task_id = row.task_id) && decide (c.user_id = row.user_id)) =
              false := by
            simpa using hc
          simp only [List.map_cons, if_neg hc, List.filter_cons, hc', ih]
          simp
    rw [hmap, List.getLast?_map]
    have hne : task_completions.filter (fun c => decide (c.task_id = row.task_id) &&
        decide (c.user_id = row.user_id)) ≠ [] := by
      rw [List.any_eq_true] at hany
      obtain ⟨c, hc, hp⟩ := hany
      exact List.ne_nil_of_mem (List.mem_filter.2 ⟨hc, hp⟩)
    cases h : (task_completions.filter (fun c => decide (c.task_id = row.task_id) &&
        decide (c.user_id = row.user_id))).getLast? with
    | none => exact absurd (List.getLast?_eq_none_iff.1 h) hne
    | some x => rfl
  · rw [List.filter_append]
    simp [List.getLast?_append]

/-- C18: `handleToggleCompletion(taskId)` upserts for the pair (taskId, current user) the
status 'completed' with the current time as `completed_at` when the user's completion of
the task is absent or not 'completed', and the status 'pending' with `completed_at = null`
when it is 'completed'; after the upsert and the refetch the map holds the upserted row,
so a toggle to completed followed by a toggle gives 'pending' with no timestamp, and a
toggle to pending followed by a toggle gives 'completed' with a timestamp. -/
theorem handleToggleCompletion_spec (u : User) (now later : String)
    (taskCompletions : String → Option TaskCompletion) (taskId : String)
    (task_completions : List TaskCompletion) :
    handleToggleCompletion (some u) now taskCompletions taskId =
      some (if (taskCompletions taskId).map (·.status) = some "completed" then
              ⟨taskId, u.id, "pending", none⟩
            else ⟨taskId, u.id, "completed", some now⟩) ∧
    handleToggleCompletion none now taskCompletions taskId = none ∧
    handleToggleCompletion (some u) now (fun _ => none) taskId =
      some ⟨taskId, u.id, "completed", some now⟩ ∧
    (∀ row : TaskCompletion,
      completionsMap (selectCompletions (upsertCompletion task_completions row) row.user_id)
        row.task_id = some row) ∧
    handleToggleCompletion (some u) later
        (completionsMap (selectCompletions
          (upsertCompletion task_completions ⟨taskId, u.id, "completed", some now⟩) u.id))
        taskId = some ⟨taskId, u.id, "pending", none⟩ ∧
    handleToggleCompletion (some u) later
        (completionsMap (selectCompletions
          (upsertCompletion task_completions ⟨taskId, u.id, "pending", none⟩) u.id))
        taskId = some ⟨taskId, u.id, "completed", some later⟩ := by
  refine ⟨?_, rfl, ?_, fun row => completionsMap_upsert task_completions row, ?_, ?_⟩
  · unfold handleToggleCompletion
    by_cases h : (taskCompletions taskId).map (·.status) = some "completed"
    · simp [h]
    · simp [h]
  · simp [handleToggleCompletion]
  · have h := completionsMap_upsert task_completions ⟨taskId, u.id, "completed", some now⟩
    simp only at h
    simp [handleToggleCompletion, h]
  · have h := completionsMap_upsert task_completions ⟨taskId, u.id, "pending", none⟩
    simp only at h
    simp [handleToggleCompletion, h]

/-! ## Theorems: registration form -/

theorem validateForm_iff (formData : FormData) (passwordStrength : Option PasswordStrength) :
    validateForm formData passwordStrength = true ↔
      (jsTrim formData.namaLengkap ≠ "" ∧ 3 ≤ jsLength (jsTrim formData.namaLengkap) ∧
        testLettersAndSpaces (jsTrim formData.namaLengkap) = true) ∧
      (jsTrim formData.npm ≠ "" ∧ testDigits formData.npm = true ∧
        8 ≤ jsLength formData.npm ∧ jsLength formData.npm ≤ 15) ∧
      (formData.password ≠ "" ∧ 8 ≤ jsLength formData.password ∧
        scoreBelow3 passwordStrength = false) ∧
      jsTrim formData.code ≠ "" := by
  have hname : (validationErrors formData passwordStrength).namaLengkap = "" ↔
      (jsTrim formData.namaLengkap ≠ "" ∧ 3 ≤ jsLength (jsTrim formData.namaLengkap) ∧
        testLettersAndSpaces (jsTrim formData.namaLengkap) = true) := by
    simp only [validationErrors]
    by_cases h1 : jsTrim formData.namaLengkap = ""
    · simp [h1]
    · by_cases h2 : jsLength (jsTrim formData.namaLengkap) < 3
      · simp [h1, h2]
      · by_cases h3 : testLettersAndSpaces (jsTrim formData.namaLengkap) = true
        · simp [h1, h2, h3]
          omega
        · simp [h1, h2, h3]
  have hnpm : (validationErrors formData passwordStrength).npm = "" ↔
      (jsTrim formData.npm ≠ "" ∧ testDigits formData.npm = true ∧
        8 ≤ jsLength formData.npm ∧ jsLength formData.npm ≤ 15) := by
    simp only [validationErrors]
    by_cases h1 : jsTrim formData.npm = ""
    · simp [h1]
    · by_cases h2 : testDigits formData.npm = true
      · by_cases h3 : jsLength formData.npm < 8 ∨ jsLength formData.npm > 15
        · simp [h1, h2, h3]
          omega
        · simp [h1, h2, h3]
          omega
      · simp [h1, h2]
  have hpw : (validationErrors formData passwordStrength).password = "" ↔
      (formData.password ≠ "" ∧ 8 ≤ jsLength formData.password ∧
        scoreBelow3 passwordStrength = false) := by
    simp only [validationErrors]
    by_cases h1 : formData.password = ""
    · simp [h1]
    · by_cases h2 : jsLength formData.password < 8
      · simp [h1, h2]
      · by_cases h3 : scoreBelow3 passwordStrength = true
        · simp [h1, h2, h3]
        · simp only [Bool.not_eq_true] at h3
          simp [h1, h2, h3]
          omega
  have hcode : (validationErrors formData passwordStrength).code = "" ↔
      jsTrim formData.code ≠ "" := by
    simp only [validationErrors]
    by_cases h1 : jsTrim formData.code = ""
    · simp [h1]
    · simp [h1]
  unfold validateForm
  simp only [List.all_cons, List.all_nil, Bool.and_true, Bool.and_eq_true, decide_eq_true_eq]
  rw [hname, hnpm, hpw, hcode]

theorem handleRegister_calls (register : FormData → RegisterReply) (formData : FormData)
    (passwordStrength : Option PasswordStrength) :
    (handleRegister register formData passwordStrength).registerCalls =
      if validateForm formData passwordStrength = true ∧ formData.code = "RH25UN1NDR406" then
        [formData]
      else [] := by
  unfold handleRegister
  by_cases hv : validateForm formData passwordStrength = true
  · by_cases hc : formData.code = "RH25UN1NDR406"
    · simp only [hv, hc]
      cases register formData with
      | success => simp
      | failure e => cases e <;> simp
    · simp [hv, hc]
  · simp [hv]

/-- C19: when the code field of the form differs from 'RH25UN1NDR406', `handleRegister`
does not call `register` (so no user row is inserted), whatever the other fields. -/
theorem register_gated_by_code (register : FormData → RegisterReply) (formData : FormData)
    (passwordStrength : Option PasswordStrength) (hcode : formData.code ≠ "RH25UN1NDR406") :
    (handleRegister register formData passwordStrength).registerCalls = [] := by
  rw [handleRegister_calls]
  simp [hcode]

/-- With the code 'WRONG' and otherwise valid fields the form passes `validateForm`, and
`handleRegister` stops with 'Kode registrasi salah' without a call of `register`. -/
theorem register_gated_by_code_witness :
    ("WRONG" : String) ≠ "RH25UN1NDR406" ∧
    validateForm ⟨"Budi Santoso", "12345678", "Abcdef12", "WRONG"⟩
      (some (checkPasswordStrength "Abcdef12")) = true ∧
    (handleRegister (fun _ => RegisterReply.success)
      ⟨"Budi Santoso", "12345678", "Abcdef12", "WRONG"⟩
      (some (checkPasswordStrength "Abcdef12"))).error = "Kode registrasi salah" ∧
    (handleRegister (fun _ => RegisterReply.success)
      ⟨"Budi Santoso", "12345678", "Abcdef12", "WRONG"⟩
      (some (checkPasswordStrength "Abcdef12"))).registerCalls = [] :=
  ⟨by decide, by decide, by decide,
    register_gated_by_code (fun _ => RegisterReply.success)
      ⟨"Budi Santoso", "12345678", "Abcdef12", "WRONG"⟩
      (some (checkPasswordStrength "Abcdef12")) (by decide)⟩

theorem forall_dropWhile_iff (p : Char → Bool) (l : List Char) :
    (∀ x ∈ l.dropWhile p, p x = true) ↔ ∀ x ∈ l, p x = true := by
  induction l with
  | nil => simp
  | cons a t ih =>
    by_cases ha : p a = true
    · simp [List.dropWhile_cons, ha, ih]
    · simp [List.dropWhile_cons, ha]

theorem jsTrim_eq_empty_iff (s : String) :
    jsTrim s = "" ↔ ∀ c ∈ s.data, isJsWhitespace c = true := by
  have h : jsTrim s = "" ↔
      ((s.data.dropWhile isJsWhitespace).reverse.dropWhile isJsWhitespace).reverse = [] := by
    unfold jsTrim
    constructor
    · intro e
      exact congrArg String.data e
    · intro e
      rw [e]
  rw [h, List.reverse_eq_nil_iff, List.dropWhile_eq_nil_iff]
  simp only [List.mem_reverse]
  exact forall_dropWhile_iff isJsWhitespace s.data

theorem jsLength_eq_length (s : String) (h : ∀ c ∈ s.data, c.toNat < 65536) :
    jsLength s = s.length := by
  unfold jsLength
  show _ = s.data.length
  generalize s.data = l at h
  induction l with
  | nil => rfl
  | cons a t ih =>
    have ha := h a (List.mem_cons_self _ _)
    have ht := ih (fun c hc => h c (List.mem_cons_of_mem _ hc))
    simp only [List.map_cons, List.sum_cons, ha, if_true, ht, List.length_cons]
    omega

theorem isDigit_bmp (c : Char) (h : isDigit c = true) :
    c.toNat < 65536 ∧ isJsWhitespace c = false := by
  simp only [isDigit, Bool.and_eq_true, decide_eq_true_eq] at h
  refine ⟨by omega, ?_⟩
  simp only [isJsWhitespace, List.mem_cons, List.mem_singleton, List.not_mem_nil, or_false,
    Bool.or_eq_false_iff, decide_eq_false_iff_not, Bool.and_eq_false_iff]
  omega

theorem letterOrSpace_bmp (c : Char) (h : isAsciiLetter c = true ∨ isJsWhitespace c = true) :
    c.toNat < 65536 := by
  simp only [isAsciiLetter, isJsWhitespace, Bool.or_eq_true, Bool.and_eq_true,
    decide_eq_true_eq, List.mem_cons, List.mem_singleton, List.not_mem_nil, or_false] at h
  omega

theorem jsLength_empty_of_lt (s : String) (h : 8 ≤ jsLength s) : s ≠ "" := by
  intro e
  rw [e] at h
  revert h
  decide

/-- C20: with the state `passwordStrength` as the effect of lines 132-136 leaves it for the
password of the form, `validateForm` returns true exactly when the trimmed full name is
non-empty, has at least 3 characters and consists of ASCII letters and white space only;
the NPM consists of digits only and has 8 to 15 characters; the password has at least 8
characters (UTF-16 code units, as `length` counts them) and its `checkPasswordStrength`
score is at least 3; and the registration code has a character that is not white space.
`handleRegister` calls `register` only when `validateForm` returns true (and the code is
the fixed one). -/
theorem validateForm_spec (formData : FormData) (previous passwordStrength : Option PasswordStrength)
    (register : FormData → RegisterReply) :
    (validateForm formData (passwordStrengthEffect false formData.password previous) = true ↔
      (jsTrim formData.namaLengkap ≠ "" ∧ 3 ≤ (jsTrim formData.namaLengkap).length ∧
        ∀ c ∈ (jsTrim formData.namaLengkap).data,
          isAsciiLetter c = true ∨ isJsWhitespace c = true) ∧
      ((∀ c ∈ formData.npm.data, isDigit c = true) ∧ 8 ≤ formData.npm.length ∧
        formData.npm.length ≤ 15) ∧
      (8 ≤ jsLength formData.password ∧ 3 ≤ (checkPasswordStrength formData.password).score) ∧
      (∃ c ∈ formData.code.data, isJsWhitespace c = false)) ∧
    ((handleRegister register formData passwordStrength).registerCalls =
      if validateForm formData passwordStrength = true ∧ formData.code = "RH25UN1NDR406" then
        [formData]
      else []) := by
  refine ⟨?_, handleRegister_calls register formData passwordStrength⟩
  rw [validateForm_iff]
  have hname : (jsTrim formData.namaLengkap ≠ "" ∧
        3 ≤ jsLength (jsTrim formData.namaLengkap) ∧
        testLettersAndSpaces (jsTrim formData.namaLengkap) = true) ↔
      (jsTrim formData.namaLengkap ≠ "" ∧ 3 ≤ (jsTrim formData.namaLengkap).length ∧
        ∀ c ∈ (jsTrim formData.namaLengkap).data,
          isAsciiLetter c = true ∨ isJsWhitespace c = true) := by
    have hdata : jsTrim formData.namaLengkap ≠ "" → (jsTrim formData.namaLengkap).data ≠ [] := by
      intro hne e
      apply hne
      cases hs : jsTrim formData.namaLengkap with
      | mk d =>
        rw [hs] at e
        simp only at e
        rw [e]
    constructor
    · rintro ⟨h1, h2, h3⟩
      simp only [testLettersAndSpaces, Bool.and_eq_true, decide_eq_true_eq, List.all_eq_true,
        Bool.or_eq_true] at h3
      refine ⟨h1, ?_, h3.2⟩
      rw [← jsLength_eq_length _ (fun c hc => letterOrSpace_bmp c (h3.2 c hc))]
      exact h2
    · rintro ⟨h1, h2, h3⟩
      refine ⟨h1, ?_, ?_⟩
      · rw [jsLength_eq_length _ (fun c hc => letterOrSpace_bmp c (h3 c hc))]
        exact h2
      · simp only [testLettersAndSpaces, Bool.and_eq_true, decide_eq_true_eq, List.all_eq_true,
          Bool.or_eq_true]
        exact ⟨hdata h1, h3⟩
  have hnpm : (jsTrim formData.npm ≠ "" ∧ testDigits formData.npm = true ∧
        8 ≤ jsLength formData.npm ∧ jsLength formData.npm ≤ 15) ↔
      ((∀ c ∈ formData.npm.data, isDigit c = true) ∧ 8 ≤ formData.npm.length ∧
        formData.npm.length ≤ 15) := by
    constructor
    · rintro ⟨_, h2, h3, h4⟩
      simp only [testDigits, Bool.and_eq_true, decide_eq_true_eq, List.all_eq_true] at h2
      rw [jsLength_eq_length _ (fun c hc => (isDigit_bmp c (h2.2 c hc)).1)] at h3 h4
      exact ⟨h2.2, h3, h4⟩
    · rintro ⟨h1, h2, h3⟩
      have hlen : formData.npm.data.length = formData.npm.length := rfl
      have hne : formData.npm.data ≠ [] := by
        intro e
        rw [e] at hlen
        simp at hlen
        omega
      refine ⟨?_, ?_, ?_, ?_⟩
      · rw [Ne, jsTrim_eq_empty_iff]
        intro hall
        obtain ⟨c, l, hcl⟩ := List.exists_cons_of_ne_nil hne
        have hc : c ∈ formData.npm.data := by rw [hcl]; exact List.mem_cons_self _ _
        have := (isDigit_bmp c (h1 c hc)).2
        rw [hall c hc] at this
        exact Bool.noConfusion this
      · simp only [testDigits, Bool.and_eq_true, decide_eq_true_eq, List.all_eq_true]
        exact ⟨hne, h1⟩
      · rw [jsLength_eq_length _ (fun c hc => (isDigit_bmp c (h1 c hc)).1)]
        exact h2
      · rw [jsLength_eq_length _ (fun c hc => (isDigit_bmp c (h1 c hc)).1)]
        exact h3
  have hpw : (formData.password ≠ "" ∧ 8 ≤ jsLength formData.password ∧
        scoreBelow3 (passwordStrengthEffect false formData.password previous) = false) ↔
      (8 ≤ jsLength formData.password ∧
        3 ≤ (checkPasswordStrength formData.password).score) := by
    constructor
    · rintro ⟨h1, h2, h3⟩
      simp [passwordStrengthEffect, h1, scoreBelow3] at h3
      exact ⟨h2, h3⟩
    · rintro ⟨h2, h3⟩
      have h1 := jsLength_empty_of_lt _ h2
      refine ⟨h1, h2, ?_⟩
      simp [passwordStrengthEffect, h1, scoreBelow3]
      exact h3
  have hcode : jsTrim formData.code ≠ "" ↔
      ∃ c ∈ formData.code.data, isJsWhitespace c = false := by
    rw [Ne, jsTrim_eq_empty_iff]
    simp
  rw [hname, hnpm, hpw, hcode]

/-! ## Theorems: registration failures, self-approval, password strength -/

/-- C21: when the form is valid, the code is the fixed one and `register` returns a failure
with a message, `handleRegister` shows 'NPM sudah terdaftar' if the message contains
'duplicate key value' and shows the message itself, unchanged, if it does not; so what is
shown is 'NPM sudah terdaftar' exactly when the message contains the substring (or is that
very text already). -/
theorem handleRegister_failure (register : FormData → RegisterReply) (formData : FormData)
    (passwordStrength : Option PasswordStrength) (message : String)
    (hvalid : validateForm formData passwordStrength = true)
    (hcode : formData.code = "RH25UN1NDR406")
    (hreply : register formData = RegisterReply.failure (some message)) :
    ("duplicate key value".data <:+: message.data →
      (handleRegister register formData passwordStrength).error = "NPM sudah terdaftar") ∧
    (¬ "duplicate key value".data <:+: message.data →
      (handleRegister register formData passwordStrength).error = message) ∧
    ((handleRegister register formData passwordStrength).error = "NPM sudah terdaftar" ↔
      ("duplicate key value".data <:+: message.data ∨ message = "NPM sudah terdaftar")) ∧
    (handleRegister register formData passwordStrength).success = "" ∧
    (handleRegister register formData passwordStrength).registerCalls = [formData] := by
  have herr : (handleRegister register formData passwordStrength).error =
      if "duplicate key value".data <:+: message.data then "NPM sudah terdaftar"
      else message := by
    simp [handleRegister, hvalid, hcode, hreply]
  refine ⟨?_, ?_, ?_, ?_, ?_⟩
  · intro h
    rw [herr, if_pos h]
  · intro h
    rw [herr, if_neg h]
  · rw [herr]
    by_cases h : "duplicate key value".data <:+: message.data
    · simp [h]
    · simp [h]
  · simp [handleRegister, hvalid, hcode, hreply]
  · simp [handleRegister, hvalid, hcode, hreply]

/-- A duplicate-key failure of the store is shown as 'NPM sudah terdaftar'; another
failure, 'Failed to fetch', is shown as it is. -/
theorem handleRegister_failure_witness :
    validateForm ⟨"Budi Santoso", "12345678", "Abcdef12", "RH25UN1NDR406"⟩
      (some (checkPasswordStrength "Abcdef12")) = true ∧
    (handleRegister
      (fun _ => RegisterReply.failure
        (some "duplicate key value violates unique constraint \"users_npm_key\""))
      ⟨"Budi Santoso", "12345678", "Abcdef12", "RH25UN1NDR406"⟩
      (some (checkPasswordStrength "Abcdef12"))).error = "NPM sudah terdaftar" ∧
    (handleRegister (fun _ => RegisterReply.failure (some "Failed to fetch"))
      ⟨"Budi Santoso", "12345678", "Abcdef12", "RH25UN1NDR406"⟩
      (some (checkPasswordStrength "Abcdef12"))).error = "Failed to fetch" :=
  ⟨by decide,
    (handleRegister_failure _ ⟨"Budi Santoso", "12345678", "Abcdef12", "RH25UN1NDR406"⟩
      (some (checkPasswordStrength "Abcdef12"))
      "duplicate key value violates unique constraint \"users_npm_key\""
      (by decide) rfl rfl).1 (by decide),
    (handleRegister_failure _ ⟨"Budi Santoso", "12345678", "Abcdef12", "RH25UN1NDR406"⟩
      (some (checkPasswordStrength "Abcdef12")) "Failed to fetch"
      (by decide) rfl rfl).2.1 (by decide)⟩

/-- C26: for an actor and a row submitted by that actor, if the submitter role joined onto
the row equals the actor's session role then `canApprove` is false; with a stale session
role (the session says admin while the row's submitter role is anggota) `canApprove` is
true for the actor's own pending row. -/
theorem no_self_approval (user : User) (attendance : Attendance) (submitter : Submitter) :
    canApprove (some user)
      { attendance with user_id := user.id,
                        users := some { submitter with role := user.role } } = false ∧
    canApprove (some { user with role := "admin" })
      { attendance with user_id := user.id, status := "pending",
                        users := some { submitter with role := "anggota" } } = true := by
  constructor
  · unfold canApprove
    by_cases h1 : user.role = "super_admin"
    · simp [h1]
    · by_cases h2 : user.role = "admin"
      · simp [h2]
      · simp [h1, h2]
  · simp [canApprove]

/-! ## Theorems: session, notification channel, tabs -/

/-- C22: after a successful login the returned record is the session user and its
serialization is the value under the key 'user' (other keys are untouched), and, the
serialization of that record being a non-empty text that parses back to it, the startup
rehydration gives the same record; after logout the session user is null, the key is
absent and rehydration gives no user; a failed login changes neither the session user nor
the storage. -/
theorem session_round_trip (stringify : UserRow → String) (parse : String → Option UserRow)
    (s : AuthState) (data : UserRow)
    (hparse : parse (stringify data) = some data) (hne : stringify data ≠ "") :
    ((login stringify s (some data)).1.user = some data ∧
      (login stringify s (some data)).2 = ⟨true, some data, none⟩ ∧
      getItem (login stringify s (some data)).1.storage "user" = some (stringify data) ∧
      (∀ key : String, key ≠ "user" →
        getItem (login stringify s (some data)).1.storage key = getItem s.storage key) ∧
      rehydrate parse (login stringify s (some data)).1.storage = some data) ∧
    ((logout (login stringify s (some data)).1).user = none ∧
      getItem (logout (login stringify s (some data)).1).storage "user" = none ∧
      rehydrate parse (logout (login stringify s (some data)).1).storage = none ∧
      (logout s).user = none ∧ getItem (logout s).storage "user" = none ∧
      rehydrate parse (logout s).storage = none) ∧
    ((login stringify s none).1.user = s.user ∧
      (login stringify s none).1.storage = s.storage ∧
      (login stringify s none).2.success = false) := by
  refine ⟨⟨rfl, rfl, ?_, ?_, ?_⟩, ⟨rfl, ?_, ?_, rfl, ?_, ?_⟩, ⟨rfl, rfl, rfl⟩⟩
  · simp [login, getItem, setItem]
  · intro key hkey
    simp [login, getItem, setItem, hkey]
  · simp [login, rehydrate, getItem, setItem, hne, hparse]
  · simp [logout, getItem, removeItem]
  · simp [logout, rehydrate, getItem, removeItem]
  · simp [logout, getItem, removeItem]
  · simp [logout, rehydrate, getItem, removeItem]

/-- The row of Budi is found by the query for his NPM and password, and a login with it
from an empty session survives a restart. -/
theorem session_round_trip_witness :
    loginQuery [sampleRow, ⟨"c", "Citra", "10000004", "Xyz12345", "anggota"⟩]
      "10000003" "Abcdef12" = some sampleRow ∧
    loginQuery [sampleRow, ⟨"c", "Citra", "10000004", "Xyz12345", "anggota"⟩]
      "10000003" "wrong" = none ∧
    sampleParse (sampleStringify sampleRow) = some sampleRow ∧
    sampleStringify sampleRow ≠ "" ∧
    rehydrate sampleParse
      (login sampleStringify ⟨none, fun _ => none⟩ (some sampleRow)).1.storage =
        some sampleRow :=
  ⟨by decide, by decide, by decide, by decide,
    (session_round_trip sampleStringify sampleParse ⟨none, fun _ => none⟩ sampleRow
      (by decide) (by decide)).1.2.2.2.2⟩

/-- C23: the effect of `Layout` returns no cleanup, so the channel it subscribed stays
subscribed after unmount, and after a change of user the channel of the previous run is
still subscribed next to the new one; had the effect handed back the cleanup of
`setupRealTimeNotifications`, no channel would remain after unmount and only the new one
after a change of user. -/
theorem channel_stays_subscribed (u next : User) :
    (layoutEffect [] (some u)).cleanup = none ∧
    mountUnmount layoutEffect (some u) = [⟨"user_notifications", "user_id=eq." ++ u.id⟩] ∧
    mountChangeUser layoutEffect (some u) (some next) =
      [⟨"user_notifications", "user_id=eq." ++ u.id⟩,
       ⟨"user_notifications", "user_id=eq." ++ next.id⟩] ∧
    mountChangeUser layoutEffect (some u) none =
      [⟨"user_notifications", "user_id=eq." ++ u.id⟩] ∧
    mountUnmount specLayoutEffect (some u) = [] ∧
    mountChangeUser specLayoutEffect (some u) (some next) =
      [⟨"user_notifications", "user_id=eq." ++ next.id⟩] := by
  refine ⟨rfl, rfl, rfl, rfl, ?_, ?_⟩
  · simp [mountUnmount, specLayoutEffect, runCleanup, setupRealTimeNotifications]
  · simp [mountChangeUser, specLayoutEffect, runCleanup, setupRealTimeNotifications]

/-- C25: the tabs of `Layout` are dashboard, jadwal, tugas and absensi, in that order, for
every session user, followed by 'manage' exactly when the session user's role is
super_admin. -/
theorem layoutTabs_spec (user : Option User) :
    ((layoutTabs user).map (·.id)).take 4 = ["dashboard", "jadwal", "tugas", "absensi"] ∧
    ("manage" ∈ (layoutTabs user).map (·.id) ↔ user.map (·.role) = some "super_admin") ∧
    (layoutTabs user).map (·.id) =
      ["dashboard", "jadwal", "tugas", "absensi"] ++
        (if user.map (·.role) = some "super_admin" then ["manage"] else []) := by
  unfold layoutTabs
  by_cases h : user.map (·.role) = some "super_admin"
  · simp [h]
  · simp [h]

/-! ## Theorems: page buttons, task filters, password strength and generator -/

theorem pageNum_add (totalPages currentPage index : Nat) :
    pageNum totalPages currentPage index = pageNum totalPages currentPage 0 + index := by
  unfold pageNum
  split_ifs <;> push_cast <;> omega

theorem pageNum_zero_bounds (totalPages currentPage : Nat)
    (hlow : 1 ≤ currentPage) (hhigh : currentPage ≤ totalPages) :
    1 ≤ pageNum totalPages currentPage 0 ∧
    pageNum totalPages currentPage 0 + ((min 5 totalPages : Nat) : Int) - 1 ≤ totalPages ∧
    pageNum totalPages currentPage 0 ≤ currentPage ∧
    (currentPage : Int) < pageNum totalPages currentPage 0 + ((min 5 totalPages : Nat) : Int) := by
  by_cases h5 : totalPages ≤ 5
  · have hmin : min 5 totalPages = totalPages := Nat.min_eq_right h5
    rw [hmin]
    simp only [pageNum, h5, if_true]
    omega
  · have hmin : min 5 totalPages = 5 := Nat.min_eq_left (by omega)
    rw [hmin]
    simp only [pageNum, h5, if_false]
    by_cases h3 : currentPage ≤ 3
    · simp only [h3, if_true]
      omega
    · simp only [h3, if_false]
      by_cases hend : (currentPage : Int) ≥ (totalPages : Int) - 2
      · simp only [hend, if_true]
        omega
      · simp only [hend, if_false]
        omega

/-- The slice of a page from 1 to `totalPages` is not empty, so for these pages the
condition of line 640 holds and the buttons shown are those of the pagination block. -/
theorem renderedPageButtons_eq (length currentPage : Nat) (hlow : 1 ≤ currentPage)
    (hhigh : currentPage ≤ totalPagesOf length) :
    0 < currentItemsLength length currentPage ∧
    renderedPageButtons length currentPage = pageButtons (totalPagesOf length) currentPage := by
  have h : 0 < currentItemsLength length currentPage := by
    unfold currentItemsLength
    unfold totalPagesOf at hhigh
    omega
  exact ⟨h, by simp [renderedPageButtons, h]⟩

/-- C27, as stated, fails: with `totalPages = 1` and `currentPage = 1` (seven rows, say) the
pagination block is not rendered, so there is no page button: not `min(5, 1) = 1` of them,
and `currentPage` is not one of them. -/
theorem pageButtons_one_page :
    pageButtons 1 1 = [] ∧ (pageButtons 1 1).length ≠ min 5 1 ∧
    ((1 : Nat) : Int) ∉ pageButtons 1 1 ∧
    renderedPageButtons 7 1 = [] ∧ totalPagesOf 7 = 1 := by
  decide

/-- C27, amended: for `totalPages ≥ 2` and `1 ≤ currentPage ≤ totalPages` the page buttons
are the `min(5, totalPages)` consecutive numbers from a first page on, all distinct and all
within `1..totalPages`, and `currentPage` is one of them. -/
theorem pageButtons_window (totalPages currentPage : Nat) (htotal : 2 ≤ totalPages)
    (hlow : 1 ≤ currentPage) (hhigh : currentPage ≤ totalPages) :
    pageButtons totalPages currentPage =
      (List.range (min 5 totalPages)).map
        (fun index : Nat => pageNum totalPages currentPage 0 + (index : Int)) ∧
    (pageButtons totalPages currentPage).length = min 5 totalPages ∧
    (pageButtons totalPages currentPage).Nodup ∧
    (∀ p ∈ pageButtons totalPages currentPage, 1 ≤ p ∧ p ≤ totalPages) ∧
    (currentPage : Int) ∈ pageButtons totalPages currentPage := by
  have hb := pageNum_zero_bounds totalPages currentPage hlow hhigh
  have hguard : totalPages > 1 := by omega
  have heq : pageButtons totalPages currentPage =
      (List.range (min 5 totalPages)).map
        (fun index : Nat => pageNum totalPages currentPage 0 + (index : Int)) := by
    unfold pageButtons
    rw [if_pos hguard]
    apply List.map_congr_left
    intro i _
    exact pageNum_add totalPages currentPage i
  refine ⟨heq, ?_, ?_, ?_, ?_⟩
  · simp [pageButtons, hguard]
  · rw [heq]
    apply List.Nodup.map _ (List.nodup_range _)
    intro a b hab
    simp only at hab
    omega
  · intro p hp
    rw [heq, List.mem_map] at hp
    obtain ⟨i, hi, rfl⟩ := hp
    rw [List.mem_range] at hi
    omega
  · rw [heq, List.mem_map]
    refine ⟨((currentPage : Int) - pageNum totalPages currentPage 0).toNat, ?_, ?_⟩
    · rw [List.mem_range]
      omega
    · omega

/-- With 9 pages and page 5 current the buttons are 3..7; with 3 pages they are 1..3, with
2 pages 1 and 2. -/
theorem pageButtons_window_witness :
    pageButtons 9 5 = [3, 4, 5, 6, 7] ∧ pageButtons 9 8 = [5, 6, 7, 8, 9] ∧
    pageButtons 3 2 = [1, 2, 3] ∧ pageButtons 2 1 = [1, 2] ∧
    ((5 : Nat) : Int) ∈ pageButtons 9 5 :=
  ⟨by decide, by decide, by decide, by decide,
    (pageButtons_window 9 5 (by decide) (by decide) (by decide)).2.2.2.2⟩

theorem filter_lengths (now : Int) (tasks : List Task)
    (taskCompletions : String → Option TaskCompletion) :
    (getFilteredTasks now tasks taskCompletions "completed").length =
      (tasks.filter (fun task => isCompleted taskCompletions task)).length ∧
    (getFilteredTasks now tasks taskCompletions "overdue").length =
      (tasks.filter (fun task =>
        !isCompleted taskCompletions task && isTaskOverdue now task.tenggat_waktu)).length ∧
    (getFilteredTasks now tasks taskCompletions "completed").length +
      (getFilteredTasks now tasks taskCompletions "pending").length +
      (getFilteredTasks now tasks taskCompletions "overdue").length = tasks.length := by
  induction tasks with
  | nil => simp [getFilteredTasks]
  | cons t l ih =>
    obtain ⟨ih1, ih2, ih3⟩ := ih
    simp only [getFilteredTasks] at ih1 ih2 ih3 ⊢
    cases hc : isCompleted taskCompletions t <;>
      cases ho : isTaskOverdue now t.tenggat_waktu <;>
      simp [List.filter_cons, hc, ho] at ih1 ih2 ih3 ⊢ <;>
      omega

/-- C28: for a fixed current time, every task passes exactly one of the filters
'completed', 'pending' and 'overdue' of `getFilteredTasks`; `getPersonalTaskStats` returns
as completed, pending and overdue the sizes of the three filtered lists, its total is the
number of tasks and the sum of the three, and no count is negative. -/
theorem task_filters_partition (now : Int) (tasks : List Task)
    (taskCompletions : String → Option TaskCompletion) (task : Task) :
    (getFilteredTasks now [task] taskCompletions "completed").length +
      (getFilteredTasks now [task] taskCompletions "pending").length +
      (getFilteredTasks now [task] taskCompletions "overdue").length = 1 ∧
    (getPersonalTaskStats now tasks taskCompletions).completed =
      (getFilteredTasks now tasks taskCompletions "completed").length ∧
    (getPersonalTaskStats now tasks taskCompletions).pending =
      (getFilteredTasks now tasks taskCompletions "pending").length ∧
    (getPersonalTaskStats now tasks taskCompletions).overdue =
      (getFilteredTasks now tasks taskCompletions "overdue").length ∧
    (getPersonalTaskStats now tasks taskCompletions).total = tasks.length ∧
    (getPersonalTaskStats now tasks taskCompletions).total =
      (getPersonalTaskStats now tasks taskCompletions).completed +
      (getPersonalTaskStats now tasks taskCompletions).pending +
      (getPersonalTaskStats now tasks taskCompletions).overdue ∧
    0 ≤ (getPersonalTaskStats now tasks taskCompletions).completed ∧
    0 ≤ (getPersonalTaskStats now tasks taskCompletions).pending ∧
    0 ≤ (getPersonalTaskStats now tasks taskCompletions).overdue := by
  have h1 := filter_lengths now [task] taskCompletions
  obtain ⟨hc, ho, hsum⟩ := filter_lengths now tasks taskCompletions
  have hcomp : (getPersonalTaskStats now tasks taskCompletions).completed =
      (getFilteredTasks now tasks taskCompletions "completed").length := by
    simp only [getPersonalTaskStats, hc]
  have hover : (getPersonalTaskStats now tasks taskCompletions).overdue =
      (getFilteredTasks now tasks taskCompletions "overdue").length := by
    simp only [getPersonalTaskStats, ho]
  have htot : (getPersonalTaskStats now tasks taskCompletions).total = tasks.length := rfl
  have hpend : (getPersonalTaskStats now tasks taskCompletions).pending =
      (tasks.length : Int) - (getPersonalTaskStats now tasks taskCompletions).completed -
        (getPersonalTaskStats now tasks taskCompletions).overdue := rfl
  rw [hcomp, hover] at hpend
  rw [hcomp, hover, htot, hpend]
  refine ⟨h1.2.2, rfl, ?_, rfl, rfl, ?_, ?_, ?_, ?_⟩ <;> omega

/-- C29: for a non-empty password `checkPasswordStrength` returns as score the number of
criteria met among the five (at least 8 code units, a lowercase letter, an uppercase
letter, a digit, a listed symbol), so the score is at most 5, the label table has an entry
for it, which gives `text` and `color`, and the feedback has `5 - score` entries; for the
empty password it returns score 0 and no feedback. -/
theorem checkPasswordStrength_spec (pwd : String) (hne : pwd ≠ "") :
    (checkPasswordStrength pwd).score =
      ([decide (jsLength pwd ≥ 8), pwd.data.any isLowercase, pwd.data.any isUppercase,
        pwd.data.any isDigit, pwd.data.any isSymbol].filter id).length ∧
    (checkPasswordStrength pwd).score ≤ 5 ∧
    strengthLabel (checkPasswordStrength pwd).score =
      some ((checkPasswordStrength pwd).text, (checkPasswordStrength pwd).color) ∧
    (checkPasswordStrength pwd).feedback.length = 5 - (checkPasswordStrength pwd).score ∧
    (checkPasswordStrength pwd).feedback.length + (checkPasswordStrength pwd).score = 5 ∧
    checkPasswordStrength "" = ⟨0, "", "", []⟩ := by
  simp only [checkPasswordStrength, hne, if_false]
  cases decide (jsLength pwd ≥ 8) <;> cases pwd.data.any isLowercase <;>
    cases pwd.data.any isUppercase <;> cases pwd.data.any isDigit <;>
    cases pwd.data.any isSymbol <;> simp [strengthLabel, Bool.toNat]

/-- The password 'Abcdef12' meets four criteria: score 4, 'Kuat', feedback 'simbol'. -/
theorem checkPasswordStrength_spec_witness :
    ("Abcdef12" : String) ≠ "" ∧
    checkPasswordStrength "Abcdef12" = ⟨4, "Kuat", "text-green-500", ["simbol"]⟩ ∧
    (checkPasswordStrength "Abcdef12").feedback.length +
      (checkPasswordStrength "Abcdef12").score = 5 :=
  ⟨by decide, by decide, (checkPasswordStrength_spec "Abcdef12" (by decide)).2.2.2.2.1⟩

theorem chars_class :
    ∀ k : Fin 70,
      (chars.data.getD k.val ' ').toNat < 65536 ∧
      chars.data.getD k.val ' ' ∈ chars.data ∧
      (isLowercase (chars.data.getD k.val ' ') || isUppercase (chars.data.getD k.val ' ') ||
        isDigit (chars.data.getD k.val ' ') || isSymbol (chars.data.getD k.val ' ')) = true := by
  decide

theorem generatePassword_data (draw : Fin 12 → Fin 70) :
    (generatePassword draw).data =
      (List.finRange 12).map (fun i => chars.data.getD (draw i).val ' ') := rfl

/-- C30: every string `generatePassword` can return has 12 characters (12 code units), all
from the alphabet `chars`, which has 70 characters; its `checkPasswordStrength` score is at
least 2, and twelve lowercase letters have score exactly 2, with which `validateForm`
rejects the form ('Password terlalu lemah') since it requires a score of 3. -/
theorem generatePassword_spec (draw : Fin 12 → Fin 70) :
    (generatePassword draw).length = 12 ∧
    jsLength (generatePassword draw) = 12 ∧
    (∀ c ∈ (generatePassword draw).data, c ∈ chars.data) ∧
    chars.data.length = 70 ∧
    2 ≤ (checkPasswordStrength (generatePassword draw)).score ∧
    generatePassword (fun _ => ⟨26, by decide⟩) = "aaaaaaaaaaaa" ∧
    (checkPasswordStrength (generatePassword (fun _ => ⟨26, by decide⟩))).score = 2 ∧
    (validationErrors ⟨"Budi Santoso", "12345678", generatePassword (fun _ => ⟨26, by decide⟩),
        "RH25UN1NDR406"⟩
      (passwordStrengthEffect false (generatePassword (fun _ => ⟨26, by decide⟩)) none)).password =
        "Password terlalu lemah" ∧
    validateForm ⟨"Budi Santoso", "12345678", generatePassword (fun _ => ⟨26, by decide⟩),
        "RH25UN1NDR406"⟩
      (passwordStrengthEffect false (generatePassword (fun _ => ⟨26, by decide⟩)) none) =
        false := by
  have hlen : (generatePassword draw).length = 12 := by
    show (generatePassword draw).data.length = 12
    rw [generatePassword_data]
    simp
  have hbmp : ∀ c ∈ (generatePassword draw).data, c.toNat < 65536 := by
    intro c hc
    rw [generatePassword_data, List.mem_map] at hc
    obtain ⟨i, _, rfl⟩ := hc
    exact (chars_class (draw i)).1
  have hjs : jsLength (generatePassword draw) = 12 := by
    rw [jsLength_eq_length _ hbmp, hlen]
  have hne : generatePassword draw ≠ "" := by
    intro e
    rw [e] at hlen
    revert hlen
    decide
  have hfirst : chars.data.getD (draw 0).val ' ' ∈ (generatePassword draw).data := by
    rw [generatePassword_data, List.mem_map]
    exact ⟨0, List.mem_finRange 0, rfl⟩
  have hclass := (chars_class (draw 0)).2.2
  refine ⟨hlen, hjs, ?_, by decide, ?_, by decide, by decide, by decide, by decide⟩
  · intro c hc
    rw [generatePassword_data, List.mem_map] at hc
    obtain ⟨i, _, rfl⟩ := hc
    exact (chars_class (draw i)).2.1
  · have hany : ((generatePassword draw).data.any isLowercase ||
        (generatePassword draw).data.any isUppercase ||
        (generatePassword draw).data.any isDigit ||
        (generatePassword draw).data.any isSymbol) = true := by
      simp only [Bool.or_eq_true, List.any_eq_true] at hclass ⊢
      rcases hclass with ((h | h) | h) | h
      · exact Or.inl (Or.inl (Or.inl ⟨_, hfirst, h⟩))
      · exact Or.inl (Or.inl (Or.inr ⟨_, hfirst, h⟩))
      · exact Or.inl (Or.inr ⟨_, hfirst, h⟩)
      · exact Or.inr ⟨_, hfirst, h⟩
    simp only [checkPasswordStrength, hne, if_false, hjs]
    revert hany
    cases (generatePassword draw).data.any isLowercase <;>
      cases (generatePassword draw).data.any isUppercase <;>
      cases (generatePassword draw).data.any isDigit <;>
      cases (generatePassword draw).data.any isSymbol <;> simp [Bool.toNat]

/-! ## Theorems: failure handling -/

/-- C24, as stated, fails: when the query of `fetchUsers` fails, the handler writes a line
on the console and shows no pop-up; the same holds for `fetchAttendanceData` of the
attendance view, while `submitAttendance` does show one. -/
theorem fetch_failure_without_popup :
    onCallResult Handler.manageFetchUsers (some "Failed to fetch") =
      [Effect.consoleError "Error fetching users:"] ∧
    onCallResult Handler.attendanceFetchAttendanceData (some "Failed to fetch") =
      [Effect.consoleError "Error fetching attendance data:"] ∧
    onCallResult Handler.attendanceSubmitAttendance (some "Failed to fetch") =
      [Effect.consoleError "Error submitting attendance:",
       Effect.alert "Gagal melakukan absensi. Silakan coba lagi."] ∧
    ¬ (∀ (h : Handler) (error : String),
        (onCallResult h (some error)).any Effect.isAlert = true) := by
  refine ⟨rfl, rfl, rfl, ?_⟩
  intro h
  have := h Handler.manageFetchUsers "Failed to fetch"
  revert this
  decide

/-- C24, amended: in the views Attendance, UserManagement, Tasks and Schedule and in
Layout, a failure of the remote call of a handler is caught by the handler and written to
the console, once; it is shown as a pop-up, once, exactly by the handlers a user action
starts in the four views (submit, approve and download of attendance, role change, delete,
toggle and save of tasks, delete and save of schedules); the fetch handlers and the
notification handlers of Layout show none.  A call that succeeds gives neither. -/
theorem failure_handling (h : Handler) (error : String) :
    ((onCallResult h (some error)).filter Effect.isLog).length = 1 ∧
    ((onCallResult h (some error)).any Effect.isAlert = true ↔ h ∈ actionHandlers) ∧
    ((onCallResult h (some error)).filter Effect.isAlert).length =
      (if h ∈ actionHandlers then 1 else 0) ∧
    onCallResult h none = [] := by
  have hr : onCallResult h (some error) = catchBlock h := rfl
  rw [hr]
  cases h <;> refine ⟨by decide, by decide, by decide, rfl⟩

/-- The largest binary64 value below 1 is `(2 ^ 53 - 1) / 2 ^ 53`; its product with 70 in
binary64 is below 70, so `Math.floor(Math.random() * 70)` is at most 69. -/
theorem random_index_below_70 :
    (mulF64 (2 ^ 53 - 1, 2 ^ 53) 70).1 < 70 * (mulF64 (2 ^ 53 - 1, 2 ^ 53) 70).2 ∧
    (mulF64 (2 ^ 53 - 1, 2 ^ 53) 70).1 / (mulF64 (2 ^ 53 - 1, 2 ^ 53) 70).2 = 69 := by
  decide
end AbjaR
